import Mathlib

/-!
# Verification of the multi-channel convolution and multi-head attention notebooks

This file gives a shallow embedding, over exact rational arithmetic, of the
functions defined by the repository's notebooks:

* `corr2d_multi_in`, `corr2d_multi_in_out`, `corr2d_multi_in_out_1x1`
  (the "Multiple Input and Multiple Output Channels" notebook, TensorFlow tab);
* `MultiHeadAttention` with its `transpose_qkv` / `transpose_output` methods
  (the "Multi-Head Attention" notebook, JAX tab).

Tensors are modelled as nested lists of rationals in row-major order; the
library primitives the notebooks call (`d2l.corr2d`, `tf.reduce_sum`,
`tf.reshape`, `tf.matmul`, `jnp.transpose`, `jnp.repeat`, `nn.Dense`,
`d2l.DotProductAttention`) are modelled from the specification's description
of them, since their code is external to the repository.
-/

namespace ML2

abbrev Vec := List ℚ
abbrev Mat := List (List ℚ)
abbrev Ten3 := List (List (List ℚ))
abbrev Ten4 := List (List (List (List ℚ)))

/-- Element of a vector at index `i` (0 outside the range, as a total model). -/
def get1 (v : Vec) (i : ℕ) : ℚ := v.getD i 0

/-- Element of a matrix at row `i`, column `j`. -/
def get2 (m : Mat) (i j : ℕ) : ℚ := get1 (m.getD i []) j

/-- Element of a 3-dimensional tensor. -/
def get3 (t : Ten3) (i j k : ℕ) : ℚ := get2 (t.getD i []) j k

/-- Element of a 4-dimensional tensor. -/
def get4 (t : Ten4) (i j k l : ℕ) : ℚ := get3 (t.getD i []) j k l

/-- A vector has length `n`. -/
abbrev Shape1 (v : Vec) (n : ℕ) : Prop := v.length = n

/-- A matrix has `r` rows, each of length `c`. -/
abbrev Shape2 (m : Mat) (r c : ℕ) : Prop :=
  m.length = r ∧ ∀ row ∈ m, row.length = c

/-- A 3-dimensional tensor has shape `(a, r, c)`. -/
abbrev Shape3 (t : Ten3) (a r c : ℕ) : Prop :=
  t.length = a ∧ ∀ m ∈ t, Shape2 m r c

/-- A 4-dimensional tensor has shape `(o, a, r, c)`. -/
abbrev Shape4 (t : Ten4) (o a r c : ℕ) : Prop :=
  t.length = o ∧ ∀ u ∈ t, Shape3 u a r c

/-- Row-major flattening of a matrix. -/
def flatten2 (m : Mat) : Vec := m.flatten

/-- Row-major flattening of a 3-dimensional tensor. -/
def flatten3 (t : Ten3) : Vec := (t.map flatten2).flatten

/-- Row-major flattening of a 4-dimensional tensor. -/
def flatten4 (t : Ten4) : Vec := (t.map flatten3).flatten

/-! ## The multi-channel convolution notebook

Source (notebook "Multiple Input and Multiple Output Channels", TensorFlow tab):

  def corr2d_multi_in(X, K):
      return tf.reduce_sum([d2l.corr2d(x, k) for x, k in zip(X, K)], axis=0)

  def corr2d_multi_in_out(X, K):
      return tf.stack([corr2d_multi_in(X, k) for k in K], 0)

  def corr2d_multi_in_out_1x1(X, K):
      c_i, h, w = X.shape
      c_o = K.shape[0]
      X = tf.reshape(X, (c_i, h * w))
      K = tf.reshape(K, (c_o, c_i))
      Y = tf.matmul(K, X)
      return tf.reshape(Y, (c_o, h, w))
-/

/-- Modelled from the spec: the library primitive `d2l.corr2d`, described by the
spec's glossary as the "sliding-window weighted-sum operation underlying
convolutional layers": output element `(i, j)` is the weighted sum of the
kernel-sized window of `X` at offset `(i, j)` with kernel `K`.  The output has
`h + 1 - k_h` rows and `w + 1 - k_w` columns. -/
def corr2d (X K : Mat) : Mat :=
  (List.range (X.length + 1 - K.length)).map fun i =>
    (List.range ((X.getD 0 []).length + 1 - (K.getD 0 []).length)).map fun j =>
      ∑ a ∈ Finset.range K.length, ∑ b ∈ Finset.range (K.getD 0 []).length,
        get2 X (i + a) (j + b) * get2 K a b

/-- Modelled from the spec: `tf.reduce_sum(stack, axis=0)` on a stack of
equally-shaped matrices sums the stack elementwise; the result's shape is the
common shape of the stacked matrices (read off the first one). -/
def sumStack (l : List Mat) : Mat :=
  (List.range (l.getD 0 []).length).map fun i =>
    (List.range ((l.getD 0 []).getD 0 []).length).map fun j =>
      ∑ k ∈ Finset.range l.length, get2 (l.getD k []) i j

/-- `corr2d_multi_in` from the notebook: per-channel 2D cross-correlations of
the zipped channels of `X` and `K`, summed along the channel axis. -/
def corr2d_multi_in (X K : Ten3) : Mat :=
  sumStack ((X.zip K).map fun p => corr2d p.1 p.2)

/-- `corr2d_multi_in_out` from the notebook: one `corr2d_multi_in` per slice of
`K` along its 0th axis, stacked. -/
def corr2d_multi_in_out (X : Ten3) (K : Ten4) : Ten3 :=
  K.map fun k => corr2d_multi_in X k

/-- Modelled from the spec: `tf.reshape` to a 2-dimensional shape, filling the
requested shape from the row-major flat data. -/
def reshape2 (r c : ℕ) (v : Vec) : Mat :=
  (List.range r).map fun i => (List.range c).map fun j => get1 v (i * c + j)

/-- Modelled from the spec: `tf.reshape` to a 3-dimensional shape. -/
def reshape3 (a r c : ℕ) (v : Vec) : Ten3 :=
  (List.range a).map fun i => (List.range r).map fun j =>
    (List.range c).map fun k => get1 v (i * (r * c) + (j * c + k))

/-- Modelled from the spec: reshape to a 4-dimensional shape. -/
def reshape4 (a b c d : ℕ) (v : Vec) : Ten4 :=
  (List.range a).map fun i => (List.range b).map fun j =>
    (List.range c).map fun k => (List.range d).map fun l =>
      get1 v (i * (b * (c * d)) + (j * (c * d) + (k * d + l)))

/-- Modelled from the spec: `tf.matmul`; entry `(i, j)` of `A * B` is the dot
product of row `i` of `A` with column `j` of `B`. -/
def matmul (A B : Mat) : Mat :=
  A.map fun row => (List.range (B.getD 0 []).length).map fun j =>
    ∑ k ∈ Finset.range B.length, get1 row k * get2 B k j

/-- `corr2d_multi_in_out_1x1` from the notebook: the fully-connected
(matrix-multiplication) formulation of a 1x1 convolution. -/
def corr2d_multi_in_out_1x1 (X : Ten3) (K : Ten4) : Ten3 :=
  let c_i := X.length
  let h := (X.getD 0 []).length
  let w := ((X.getD 0 []).getD 0 []).length
  let c_o := K.length
  let X2 := reshape2 c_i (h * w) (flatten3 X)
  let K2 := reshape2 c_o c_i (flatten4 K)
  let Y := matmul K2 X2
  reshape3 c_o h w (flatten2 Y)

/-! ## Fallible library calls (for the error-propagation claim)

The pure model above is total; to reason about how the notebook functions
surface library failures, the library primitives used by
`corr2d_multi_in_out_1x1` are also modelled with their library-default error
outcomes made explicit. -/

/-- The error values raised by the underlying library primitives.  Modelled
from the spec: the only errors in the system are "library-default exceptions
surfaced directly"; the repository defines no error values of its own, which
is why this type has only library constructors (one per fallible library
primitive: `tf.reshape`, `tf.matmul`, `d2l.corr2d`, `tf.reduce_sum`,
`tf.stack`). -/
inductive LibError where
  | reshapeError : LibError
  | matmulError : LibError
  | corr2dError : LibError
  | reduceSumError : LibError
  | stackError : LibError
deriving DecidableEq

/-- Modelled from the spec: `tf.reshape` to a 2-dimensional shape raises a
library error when the element count does not match the requested shape. -/
def reshapeE2 (r c : ℕ) (v : Vec) : Except LibError Mat :=
  if v.length = r * c then Except.ok (reshape2 r c v)
  else Except.error LibError.reshapeError

/-- Modelled from the spec: `tf.reshape` to a 3-dimensional shape. -/
def reshapeE3 (a r c : ℕ) (v : Vec) : Except LibError Ten3 :=
  if v.length = a * (r * c) then Except.ok (reshape3 a r c v)
  else Except.error LibError.reshapeError

/-- Modelled from the spec: `tf.matmul` raises a library error when the
arguments are not conformable matrices. -/
def matmulE (A B : Mat) : Except LibError Mat :=
  if (∀ row ∈ A, row.length = B.length) ∧
      (∀ row ∈ B, row.length = (B.getD 0 []).length) then
    Except.ok (matmul A B)
  else Except.error LibError.matmulError

/-- `corr2d_multi_in_out_1x1` with the fallibility of its four library calls
made explicit: the notebook function merely sequences the library calls and
has no handling of its own, so each error branch returns the inner error
unchanged. -/
def corr2d_multi_in_out_1x1E (X : Ten3) (K : Ten4) : Except LibError Ten3 :=
  let c_i := X.length
  let h := (X.getD 0 []).length
  let w := ((X.getD 0 []).getD 0 []).length
  let c_o := K.length
  match reshapeE2 c_i (h * w) (flatten3 X) with
  | Except.error e => Except.error e
  | Except.ok X2 =>
    match reshapeE2 c_o c_i (flatten4 K) with
    | Except.error e => Except.error e
    | Except.ok K2 =>
      match matmulE K2 X2 with
      | Except.error e => Except.error e
      | Except.ok Y => reshapeE3 c_o h w (flatten2 Y)

/-- Modelled from the spec: `d2l.corr2d` raises a library error when the
kernel window exceeds the input window (the library cannot allocate an
output with a negative dimension). -/
def corr2dE (X K : Mat) : Except LibError Mat :=
  if K.length ≤ X.length ∧ (K.getD 0 []).length ≤ (X.getD 0 []).length then
    Except.ok (corr2d X K)
  else Except.error LibError.corr2dError

/-- Modelled from the spec: `tf.reduce_sum(list, axis=0)` raises a library
error when the listed matrices cannot be stacked into one tensor because
their shapes disagree. -/
def reduceSumE (l : List Mat) : Except LibError Mat :=
  if ∀ m ∈ l, Shape2 m (l.getD 0 []).length ((l.getD 0 []).getD 0 []).length then
    Except.ok (sumStack l)
  else Except.error LibError.reduceSumError

/-- Modelled from the spec: `tf.stack(list, 0)` raises a library error when
the listed matrices' shapes disagree. -/
def stackE (l : List Mat) : Except LibError Ten3 :=
  if ∀ m ∈ l, Shape2 m (l.getD 0 []).length ((l.getD 0 []).getD 0 []).length then
    Except.ok l
  else Except.error LibError.stackError

/-- The per-channel correlations of `corr2d_multi_in`'s list comprehension,
with the fallibility of each `d2l.corr2d` call made explicit: the
comprehension evaluates in order and the first library error aborts it. -/
def corr2dListE : List (Mat × Mat) → Except LibError (List Mat)
  | [] => Except.ok []
  | p :: ps =>
    match corr2dE p.1 p.2 with
    | Except.error e => Except.error e
    | Except.ok m =>
      match corr2dListE ps with
      | Except.error e => Except.error e
      | Except.ok ms => Except.ok (m :: ms)

/-- `corr2d_multi_in` with the fallibility of its library calls made
explicit: the notebook function merely runs the comprehension of `d2l.corr2d`
calls and hands the results to `tf.reduce_sum`, with no handling of its own. -/
def corr2d_multi_inE (X K : Ten3) : Except LibError Mat :=
  match corr2dListE (X.zip K) with
  | Except.error e => Except.error e
  | Except.ok l => reduceSumE l

/-- The slices of `corr2d_multi_in_out`'s list comprehension, with the
fallibility of each `corr2d_multi_in` call made explicit. -/
def corr2d_multi_inListE (X : Ten3) : Ten4 → Except LibError (List Mat)
  | [] => Except.ok []
  | k :: ks =>
    match corr2d_multi_inE X k with
    | Except.error e => Except.error e
    | Except.ok m =>
      match corr2d_multi_inListE X ks with
      | Except.error e => Except.error e
      | Except.ok ms => Except.ok (m :: ms)

/-- `corr2d_multi_in_out` with the fallibility of its calls made explicit:
the comprehension of `corr2d_multi_in` calls followed by `tf.stack`, with no
handling of its own. -/
def corr2d_multi_in_outE (X : Ten3) (K : Ten4) : Except LibError Ten3 :=
  match corr2d_multi_inListE X K with
  | Except.error e => Except.error e
  | Except.ok l => stackE l

/-- Modelled from the spec: reshape to 4 dimensions with the last dimension
inferred (`-1`) raises a library error when the known dimensions do not
divide the element count. -/
def reshapeInferLast4E (a b c : ℕ) (v : Vec) : Except LibError Ten4 :=
  if 0 < a * b * c ∧ a * b * c ∣ v.length then
    Except.ok (reshape4 a b c (v.length / (a * b * c)) v)
  else Except.error LibError.reshapeError

/-- Modelled from the spec: reshape to 3 dimensions with the first dimension
inferred (`-1`). -/
def reshapeInferFirst3E (r c : ℕ) (v : Vec) : Except LibError Ten3 :=
  if 0 < r * c ∧ r * c ∣ v.length then
    Except.ok (reshape3 (v.length / (r * c)) r c v)
  else Except.error LibError.reshapeError

/-- Modelled from the spec: reshape to 4 dimensions with the first dimension
inferred (`-1`). -/
def reshapeInferFirst4E (b c d : ℕ) (v : Vec) : Except LibError Ten4 :=
  if 0 < b * c * d ∧ b * c * d ∣ v.length then
    Except.ok (reshape4 (v.length / (b * c * d)) b c d v)
  else Except.error LibError.reshapeError

/-- Modelled from the spec: reshape to 3 dimensions with the last dimension
inferred (`-1`). -/
def reshapeInferLast3E (a r : ℕ) (v : Vec) : Except LibError Ten3 :=
  if 0 < a * r ∧ a * r ∣ v.length then
    Except.ok (reshape3 a r (v.length / (a * r)) v)
  else Except.error LibError.reshapeError

/-! ## The multi-head attention notebook

Source (notebook "Multi-Head Attention", JAX tab):

  @nn.compact
  def __call__(self, queries, keys, values, valid_lens, training=False):
      queries = self.transpose_qkv(self.W_q(queries))
      keys = self.transpose_qkv(self.W_k(keys))
      values = self.transpose_qkv(self.W_v(values))
      if valid_lens is not None:
          valid_lens = jnp.repeat(valid_lens, self.num_heads, axis=0)
      output, attention_weights = self.attention(
          queries, keys, values, valid_lens, training=training)
      output_concat = self.transpose_output(output)
      return self.W_o(output_concat), attention_weights

  def transpose_qkv(self, X):
      X = X.reshape((X.shape[0], X.shape[1], self.num_heads, -1))
      X = jnp.transpose(X, (0, 2, 1, 3))
      return X.reshape((-1, X.shape[2], X.shape[3]))

  def transpose_output(self, X):
      X = X.reshape((-1, self.num_heads, X.shape[1], X.shape[2]))
      X = jnp.transpose(X, (0, 2, 1, 3))
      return X.reshape((X.shape[0], X.shape[1], -1))
-/

/-- Modelled from the spec: `jnp.transpose` with axes `(0, 2, 1, 3)` swaps the
two middle axes; this helper transposes the outer two levels of one slice. -/
def swap01 (t : Ten3) : Ten3 :=
  (List.range (t.getD 0 []).length).map fun j =>
    (List.range t.length).map fun i => (t.getD i []).getD j []

/-- Modelled from the spec: `jnp.transpose(X, (0, 2, 1, 3))`. -/
def transpose0213 (t : Ten4) : Ten4 := t.map swap01

/-- `transpose_qkv` from the notebook.  The inferred `-1` dimensions of the two
reshapes are the total element count divided by the product of the given
dimensions, exactly as the library computes them. -/
def transpose_qkv (num_heads : ℕ) (X : Ten3) : Ten3 :=
  let b := X.length
  let n := (X.getD 0 []).length
  let dh := (flatten3 X).length / (b * n * num_heads)
  let X4 := reshape4 b n num_heads dh (flatten3 X)
  let Xt := transpose0213 X4
  let s2 := ((Xt.getD 0 []).getD 0 []).length
  let s3 := (((Xt.getD 0 []).getD 0 []).getD 0 []).length
  let m := (flatten4 Xt).length / (s2 * s3)
  reshape3 m s2 s3 (flatten4 Xt)

/-- `transpose_output` from the notebook. -/
def transpose_output (num_heads : ℕ) (X : Ten3) : Ten3 :=
  let s1 := (X.getD 0 []).length
  let s2 := ((X.getD 0 []).getD 0 []).length
  let b := (flatten3 X).length / (num_heads * s1 * s2)
  let X4 := reshape4 b num_heads s1 s2 (flatten3 X)
  let Xt := transpose0213 X4
  let t0 := Xt.length
  let t1 := (Xt.getD 0 []).length
  let t2 := (flatten4 Xt).length / (t0 * t1)
  reshape3 t0 t1 t2 (flatten4 Xt)

/-- `transpose_qkv` with the fallibility of its two inferred-dimension
reshapes made explicit: the method is a reshape, a transpose and a reshape,
with no handling of its own. -/
def transpose_qkvE (num_heads : ℕ) (X : Ten3) : Except LibError Ten3 :=
  match reshapeInferLast4E X.length (X.getD 0 []).length num_heads
      (flatten3 X) with
  | Except.error e => Except.error e
  | Except.ok X4 =>
    reshapeInferFirst3E (((transpose0213 X4).getD 0 []).getD 0 []).length
      ((((transpose0213 X4).getD 0 []).getD 0 []).getD 0 []).length
      (flatten4 (transpose0213 X4))

/-- `transpose_output` with the fallibility of its two inferred-dimension
reshapes made explicit. -/
def transpose_outputE (num_heads : ℕ) (X : Ten3) : Except LibError Ten3 :=
  match reshapeInferFirst4E num_heads (X.getD 0 []).length
      ((X.getD 0 []).getD 0 []).length (flatten3 X) with
  | Except.error e => Except.error e
  | Except.ok X4 =>
    reshapeInferLast3E (transpose0213 X4).length
      ((transpose0213 X4).getD 0 []).length (flatten4 (transpose0213 X4))

/-- Modelled from the spec: flax `nn.Dense(num_hiddens, use_bias=False)`
applied to a 3-dimensional input multiplies each inner matrix by the kernel,
i.e. acts by matrix product along the last axis. -/
def dense (W : Mat) (X : Ten3) : Ten3 := X.map fun m => matmul m W

/-- Modelled from the spec: `jnp.repeat(v, n, axis=0)` on a 1-dimensional
array repeats each entry `n` consecutive times. -/
def repeatAxis0 (n : ℕ) (l : List ℕ) : List ℕ :=
  (l.map (List.replicate n)).flatten

/-- Modelled from the spec: `d2l.DotProductAttention` is the underlying
attention-pooling primitive, abstracted here as `att`; a batched call applies
the pooling independently to each element of the leading batch axis, masking
the i-th batch element with the i-th entry of the valid-lens vector. -/
def batchedAttention (att : Mat → Mat → Mat → Option ℕ → Mat)
    (Q K V : Ten3) (vl : Option (List ℕ)) : Ten3 :=
  (List.range Q.length).map fun i =>
    att (Q.getD i []) (K.getD i []) (V.getD i []) (vl.map fun l => l.getD i 0)

/-- The parameters of the notebook's `MultiHeadAttention` module: the four
projection matrices materialized by the `nn.Dense` layers, and the number of
heads. -/
structure MultiHeadAttention where
  num_heads : ℕ
  W_q : Mat
  W_k : Mat
  W_v : Mat
  W_o : Mat

/-- `MultiHeadAttention.__call__` from the notebook (the first component of
its returned pair; the second component is the attention-weights output of
the underlying primitive). -/
def MultiHeadAttention.call (p : MultiHeadAttention)
    (att : Mat → Mat → Mat → Option ℕ → Mat)
    (queries keys values : Ten3) (valid_lens : Option (List ℕ)) : Ten3 :=
  let q := transpose_qkv p.num_heads (dense p.W_q queries)
  let k := transpose_qkv p.num_heads (dense p.W_k keys)
  let v := transpose_qkv p.num_heads (dense p.W_v values)
  let vl := valid_lens.map (repeatAxis0 p.num_heads)
  let output := batchedAttention att q k v vl
  let output_concat := transpose_output p.num_heads output
  dense p.W_o output_concat

/-- Columns `[h * dh, (h + 1) * dh)` of a weight matrix: the per-head
projection matrix of the spec's formula. -/
def headSlice (dh h : ℕ) (W : Mat) : Mat :=
  W.map fun row => (row.drop (h * dh)).take dh

/-- The standard multi-head attention formula as the spec states it: each head
is the attention pooling of per-head linear projections of queries, keys and
values; the heads are concatenated and the output projection is applied. -/
def standardMHA (p : MultiHeadAttention) (dh : ℕ)
    (att : Mat → Mat → Mat → Option ℕ → Mat)
    (queries keys values : Ten3) (valid_lens : Option (List ℕ)) : Ten3 :=
  let head := fun (i h : ℕ) =>
    att (matmul (queries.getD i []) (headSlice dh h p.W_q))
      (matmul (keys.getD i []) (headSlice dh h p.W_k))
      (matmul (values.getD i []) (headSlice dh h p.W_v))
      (valid_lens.map fun l => l.getD i 0)
  let concat := (List.range queries.length).map fun i =>
    (List.range (queries.getD i []).length).map fun t =>
      ((List.range p.num_heads).map fun h => (head i h).getD t []).flatten
  dense p.W_o concat

/-! ## Sample tensors (used by the witness theorems) -/

/-- The input tensor of the notebook's first validation cell. -/
def Xsample : Ten3 :=
  [[[0, 1, 2], [3, 4, 5], [6, 7, 8]], [[1, 2, 3], [4, 5, 6], [7, 8, 9]]]

/-- The kernel tensor of the notebook's first validation cell. -/
def Ksample : Ten3 := [[[0, 1], [2, 3]], [[1, 2], [3, 4]]]

/-- A 3-output-channel kernel, as the notebook's `tf.stack((K, K+1, K+2), 0)`. -/
def Ksample4 : Ten4 :=
  [[[[0, 1], [2, 3]], [[1, 2], [3, 4]]],
   [[[1, 2], [3, 4]], [[2, 3], [4, 5]]],
   [[[2, 3], [4, 5]], [[3, 4], [5, 6]]]]

/-- A sample 3-channel input for the 1x1-convolution claims. -/
def Xsample1x1 : Ten3 := [[[1, 2], [3, 4]], [[5, 6], [7, 8]], [[9, 10], [11, 12]]]

/-- A sample `(2, 3, 1, 1)` kernel for the 1x1-convolution claims. -/
def Ksample1x1 : Ten4 := [[[[2]], [[3]], [[4]]], [[[1]], [[0]], [[5]]]]

/-- A one-channel kernel tensor (fewer channels than `Xsample`). -/
def KsampleOne : Ten3 := [[[0, 1], [2, 3]]]

/-- A `(1, 1, 1)` input on which several library calls fail. -/
def XerrSample : Ten3 := [[[1]]]

/-- A one-channel kernel whose `2 x 2` window exceeds `XerrSample`. -/
def KerrSample : Ten3 := [[[1, 2], [3, 4]]]

/-- A `(1, 1, 2, 2)` kernel whose window exceeds `XerrSample`. -/
def K4errSample : Ten4 := [[[[1, 2], [3, 4]]]]

/-- A `(1, 2, 1, 1)` kernel whose channel count disagrees with `XerrSample`. -/
def K4mismatch : Ten4 := [[[[1]], [[2]]]]

/-- Sample multi-head attention parameters: 2 heads, `num_hiddens = 2`. -/
def MHAsample : MultiHeadAttention :=
  { num_heads := 2
    W_q := [[1, 2], [3, 4]]
    W_k := [[0, 1], [1, 0]]
    W_v := [[2, 0], [0, 2]]
    W_o := [[1, 1], [0, 1]] }

/-- A sample queries tensor of shape `(1, 2, 2)`. -/
def Qsample : Ten3 := [[[1, 0], [0, 1]]]

/-- A sample tensor of shape `(1, 2, 4)` for the transposition round trip. -/
def XsampleMHA : Ten3 := [[[1, 2, 3, 4], [5, 6, 7, 8]]]

/-- A sample keys/values tensor of shape `(1, 2, 2)`. -/
def KVsample : Ten3 := [[[1, 1], [2, 0]]]

/-- A sample attention primitive used only to instantiate witnesses: it
returns its queries argument, so it preserves the required output shape. -/
def attSample : Mat → Mat → Mat → Option ℕ → Mat := fun Q _ _ _ => Q

/-! ## Basic list-indexing lemmas -/

theorem getD_range_map {α : Type _} (f : ℕ → α) (d : α) {i r : ℕ} (h : i < r) :
    ((List.range r).map f).getD i d = f i := by
  rw [List.getD_eq_getElem?_getD, List.getElem?_map, List.getElem?_range h,
    Option.map_some']
  rfl

@[simp] theorem length_range_map {α : Type _} (f : ℕ → α) (r : ℕ) :
    ((List.range r).map f).length = r := by
  simp

theorem getD_map {α β : Type _} (f : α → β) (l : List α) (d : α) (d' : β)
    {i : ℕ} (h : i < l.length) :
    (l.map f).getD i d' = f (l.getD i d) := by
  rw [List.getD_eq_getElem (l.map f) d' (by simpa using h),
    List.getElem_map, List.getD_eq_getElem l d h]

theorem getD_zip {α β : Type _} (l : List α) (l' : List β) (d : α) (d' : β)
    {i : ℕ} (h : i < (l.zip l').length) :
    (l.zip l').getD i (d, d') = (l.getD i d, l'.getD i d') := by
  have hl : i < l.length := lt_of_lt_of_le h (by simp [List.length_zip])
  have hl' : i < l'.length := lt_of_lt_of_le h (by simp [List.length_zip])
  rw [List.getD_eq_getElem _ _ h, List.getElem_zip,
    List.getD_eq_getElem l d hl, List.getD_eq_getElem l' d' hl']

theorem getD_mem {α : Type _} {l : List α} (d : α) {i : ℕ} (h : i < l.length) :
    l.getD i d ∈ l := by
  rw [List.getD_eq_getElem l d h]
  exact List.getElem_mem h

theorem join_length_uniform {α : Type _} {c : ℕ} :
    ∀ {l : List (List α)}, (∀ x ∈ l, x.length = c) → l.flatten.length = l.length * c
  | [], _ => by simp
  | x :: xs, h => by
    have hx : x.length = c := h x (by simp)
    have ih := join_length_uniform (fun y hy => h y (List.mem_cons_of_mem x hy))
    simp [List.flatten, hx, ih, Nat.succ_mul, Nat.add_comm]

theorem join_getD {α : Type _} (d : α) :
    ∀ (l : List (List α)) (c : ℕ), (∀ x ∈ l, x.length = c) →
      ∀ i j, i < l.length → j < c →
        l.flatten.getD (i * c + j) d = (l.getD i []).getD j d
  | [], _, _, i, _, hi, _ => by simp at hi
  | x :: xs, c, h, 0, j, _, hj => by
    have hx : x.length = c := h x (by simp)
    simp only [List.flatten_cons, Nat.zero_mul, Nat.zero_add, List.getD_cons_zero]
    exact List.getD_append _ _ _ _ (hx ▸ hj)
  | x :: xs, c, h, i + 1, j, hi, hj => by
    have hx : x.length = c := h x (by simp)
    have ih := join_getD d xs c (fun y hy => h y (List.mem_cons_of_mem x hy)) i j
      (by simpa using Nat.lt_of_succ_lt_succ hi) hj
    simp only [List.flatten_cons, List.getD_cons_succ]
    rw [Nat.succ_mul, Nat.add_comm (i * c) c, Nat.add_assoc,
      List.getD_append_right _ _ _ _ (hx ▸ Nat.le_add_right c (i * c + j)), hx,
      Nat.add_sub_cancel_left]
    exact ih

theorem join_getD_div_mod {α : Type _} (d : α) (l : List (List α)) (c : ℕ)
    (hu : ∀ x ∈ l, x.length = c) (hc : 0 < c) {q : ℕ} (hq : q < l.length * c) :
    l.flatten.getD q d = (l.getD (q / c) []).getD (q % c) d := by
  have hdiv : q / c < l.length := Nat.div_lt_of_lt_mul (by rwa [Nat.mul_comm])
  have hmod : q % c < c := Nat.mod_lt _ hc
  have := join_getD d l c hu (q / c) (q % c) hdiv hmod
  rwa [Nat.div_add_mod' q c] at this

/-! ## Extensionality for tensors of known shape -/

theorem vec_ext {v w : Vec} (hl : v.length = w.length)
    (h : ∀ i < v.length, get1 v i = get1 w i) : v = w := by
  apply List.ext_getElem hl
  intro i hi hi'
  have := h i hi
  rwa [get1, get1, List.getD_eq_getElem v 0 hi, List.getD_eq_getElem w 0 hi'] at this

theorem mat_ext {m m' : Mat} {r c : ℕ} (hm : Shape2 m r c) (hm' : Shape2 m' r c)
    (h : ∀ i < r, ∀ j < c, get2 m i j = get2 m' i j) : m = m' := by
  apply List.ext_getElem (hm.1.trans hm'.1.symm)
  intro i hi hi'
  have hir : i < r := hm.1 ▸ hi
  apply vec_ext
  · rw [hm.2 _ (List.getElem_mem hi), hm'.2 _ (List.getElem_mem hi')]
  · intro j hj
    have hjc : j < c := (hm.2 _ (List.getElem_mem hi)) ▸ hj
    have := h i hir j hjc
    rwa [get2, get2, List.getD_eq_getElem m [] (hm.1 ▸ hir),
      List.getD_eq_getElem m' [] (hm'.1 ▸ hir)] at this

theorem ten3_ext {t t' : Ten3} {a r c : ℕ} (ht : Shape3 t a r c)
    (ht' : Shape3 t' a r c)
    (h : ∀ i < a, ∀ j < r, ∀ k < c, get3 t i j k = get3 t' i j k) : t = t' := by
  apply List.ext_getElem (ht.1.trans ht'.1.symm)
  intro i hi hi'
  have hia : i < a := ht.1 ▸ hi
  apply mat_ext (ht.2 _ (List.getElem_mem hi)) (ht'.2 _ (List.getElem_mem hi'))
  intro j hj k hk
  have := h i hia j hj k hk
  rwa [get3, get3, List.getD_eq_getElem t [] (ht.1 ▸ hia),
    List.getD_eq_getElem t' [] (ht'.1 ▸ hia)] at this

/-! ## Flattening lemmas -/

theorem flatten2_length {m : Mat} {r c : ℕ} (hm : Shape2 m r c) :
    (flatten2 m).length = r * c := by
  rw [flatten2, join_length_uniform hm.2, hm.1]

theorem flatten3_length {t : Ten3} {a r c : ℕ} (ht : Shape3 t a r c) :
    (flatten3 t).length = a * (r * c) := by
  rw [flatten3, join_length_uniform (c := r * c), List.length_map, ht.1]
  intro x hx
  rcases List.mem_map.1 hx with ⟨m, hm, rfl⟩
  exact flatten2_length (ht.2 m hm)

theorem flatten4_length {t : Ten4} {o a r c : ℕ} (ht : Shape4 t o a r c) :
    (flatten4 t).length = o * (a * (r * c)) := by
  rw [flatten4, join_length_uniform (c := a * (r * c)), List.length_map, ht.1]
  intro x hx
  rcases List.mem_map.1 hx with ⟨u, hu, rfl⟩
  exact flatten3_length (ht.2 u hu)

theorem flatten2_getD {m : Mat} {r c : ℕ} (hm : Shape2 m r c)
    {i j : ℕ} (hi : i < r) (hj : j < c) :
    get1 (flatten2 m) (i * c + j) = get2 m i j :=
  join_getD 0 m c hm.2 i j (hm.1 ▸ hi) hj

theorem flatten3_getD {t : Ten3} {a r c : ℕ} (ht : Shape3 t a r c)
    {i j k : ℕ} (hi : i < a) (hj : j < r) (hk : k < c) :
    get1 (flatten3 t) (i * (r * c) + (j * c + k)) = get3 t i j k := by
  have hu : ∀ x ∈ t.map flatten2, x.length = r * c := by
    intro x hx
    rcases List.mem_map.1 hx with ⟨m, hm, rfl⟩
    exact flatten2_length (ht.2 m hm)
  have hjk : j * c + k < r * c :=
    calc j * c + k < j * c + c := Nat.add_lt_add_left hk _
      _ = (j + 1) * c := by ring
      _ ≤ r * c := Nat.mul_le_mul_right c (Nat.succ_le_of_lt hj)
  rw [flatten3, get1, join_getD 0 (t.map flatten2) (r * c) hu i (j * c + k)
    (by simpa [ht.1] using hi) hjk,
    getD_map flatten2 t [] [] (ht.1 ▸ hi)]
  exact flatten2_getD (ht.2 _ (getD_mem [] (ht.1 ▸ hi))) hj hk

theorem flatten4_getD {t : Ten4} {o a r c : ℕ} (ht : Shape4 t o a r c)
    {i j k l : ℕ} (hi : i < o) (hj : j < a) (hk : k < r) (hl : l < c) :
    get1 (flatten4 t) (i * (a * (r * c)) + (j * (r * c) + (k * c + l))) =
      get4 t i j k l := by
  have hu : ∀ x ∈ t.map flatten3, x.length = a * (r * c) := by
    intro x hx
    rcases List.mem_map.1 hx with ⟨u, hu', rfl⟩
    exact flatten3_length (ht.2 u hu')
  have hkl : k * c + l < r * c :=
    calc k * c + l < k * c + c := Nat.add_lt_add_left hl _
      _ = (k + 1) * c := by ring
      _ ≤ r * c := Nat.mul_le_mul_right c (Nat.succ_le_of_lt hk)
  have hjkl : j * (r * c) + (k * c + l) < a * (r * c) :=
    calc j * (r * c) + (k * c + l) < j * (r * c) + r * c := Nat.add_lt_add_left hkl _
      _ = (j + 1) * (r * c) := by ring
      _ ≤ a * (r * c) := Nat.mul_le_mul_right (r * c) (Nat.succ_le_of_lt hj)
  rw [flatten4, get1, join_getD 0 (t.map flatten3) (a * (r * c)) hu i _
    (by simpa [ht.1] using hi) hjkl,
    getD_map flatten3 t [] [] (ht.1 ▸ hi)]
  exact flatten3_getD (ht.2 _ (getD_mem [] (ht.1 ▸ hi))) hj hk hl

/-! ## Pointwise characterizations of the operations -/

theorem get2_range_map {R C : ℕ} (S : ℕ → ℕ → ℚ) {i j : ℕ} (hi : i < R) (hj : j < C) :
    get2 ((List.range R).map fun i => (List.range C).map fun j => S i j) i j = S i j := by
  simp only [get2, get1]
  rw [getD_range_map _ _ hi, getD_range_map _ _ hj]

theorem shape2_range_map {R C : ℕ} (S : ℕ → ℕ → ℚ) :
    Shape2 ((List.range R).map fun i => (List.range C).map fun j => S i j) R C := by
  refine ⟨by simp, ?_⟩
  intro row hrow
  rcases List.mem_map.1 hrow with ⟨i, _, rfl⟩
  simp

theorem get3_range_map {A R C : ℕ} (S : ℕ → ℕ → ℕ → ℚ) {i j k : ℕ}
    (hi : i < A) (hj : j < R) (hk : k < C) :
    get3 ((List.range A).map fun i => (List.range R).map fun j =>
      (List.range C).map fun k => S i j k) i j k = S i j k := by
  simp only [get3, get2, get1]
  rw [getD_range_map _ _ hi, getD_range_map _ _ hj, getD_range_map _ _ hk]

theorem shape3_range_map {A R C : ℕ} (S : ℕ → ℕ → ℕ → ℚ) :
    Shape3 ((List.range A).map fun i => (List.range R).map fun j =>
      (List.range C).map fun k => S i j k) A R C := by
  refine ⟨by simp, ?_⟩
  intro m hm
  rcases List.mem_map.1 hm with ⟨i, _, rfl⟩
  exact shape2_range_map _

theorem corr2d_shape (X K : Mat) :
    Shape2 (corr2d X K) (X.length + 1 - K.length)
      ((X.getD 0 []).length + 1 - (K.getD 0 []).length) :=
  shape2_range_map _

theorem corr2d_get {X K : Mat} {i j : ℕ}
    (hi : i < X.length + 1 - K.length)
    (hj : j < (X.getD 0 []).length + 1 - (K.getD 0 []).length) :
    get2 (corr2d X K) i j =
      ∑ a ∈ Finset.range K.length, ∑ b ∈ Finset.range (K.getD 0 []).length,
        get2 X (i + a) (j + b) * get2 K a b :=
  get2_range_map _ hi hj

theorem sumStack_shape (l : List Mat) :
    Shape2 (sumStack l) (l.getD 0 []).length ((l.getD 0 []).getD 0 []).length :=
  shape2_range_map _

theorem sumStack_get {l : List Mat} {i j : ℕ}
    (hi : i < (l.getD 0 []).length) (hj : j < ((l.getD 0 []).getD 0 []).length) :
    get2 (sumStack l) i j = ∑ k ∈ Finset.range l.length, get2 (l.getD k []) i j :=
  get2_range_map _ hi hj

theorem matmul_shape (A B : Mat) :
    Shape2 (matmul A B) A.length (B.getD 0 []).length := by
  refine ⟨by simp [matmul], ?_⟩
  intro row hrow
  rcases List.mem_map.1 hrow with ⟨r, _, rfl⟩
  simp

theorem matmul_get {A B : Mat} {i j : ℕ} (hi : i < A.length)
    (hj : j < (B.getD 0 []).length) :
    get2 (matmul A B) i j =
      ∑ k ∈ Finset.range B.length, get1 (A.getD i []) k * get2 B k j := by
  simp only [get2, get1, matmul]
  rw [getD_map _ A [] [] hi, getD_range_map _ _ hj]

theorem reshape2_get {r c : ℕ} (v : Vec) {i j : ℕ} (hi : i < r) (hj : j < c) :
    get2 (reshape2 r c v) i j = get1 v (i * c + j) :=
  get2_range_map _ hi hj

theorem reshape2_shape (r c : ℕ) (v : Vec) : Shape2 (reshape2 r c v) r c :=
  shape2_range_map _

theorem reshape3_get {a r c : ℕ} (v : Vec) {i j k : ℕ}
    (hi : i < a) (hj : j < r) (hk : k < c) :
    get3 (reshape3 a r c v) i j k = get1 v (i * (r * c) + (j * c + k)) :=
  get3_range_map _ hi hj hk

theorem reshape3_shape (a r c : ℕ) (v : Vec) : Shape3 (reshape3 a r c v) a r c :=
  shape3_range_map _

/-- The list of per-channel correlations built by `corr2d_multi_in`'s
comprehension over `zip X K`: `zip` truncates to the shorter argument. -/
theorem zip_corr2d_eq_range (X K : Ten3) :
    ((X.zip K).map fun p => corr2d p.1 p.2) =
      (List.range (min X.length K.length)).map fun c =>
        corr2d (X.getD c []) (K.getD c []) := by
  apply List.ext_getElem (by simp [List.length_zip])
  intro i hi hi'
  have hiz : i < (X.zip K).length := by simpa using hi
  have hix : i < X.length := by simp [List.length_zip] at hiz; omega
  have hik : i < K.length := by simp [List.length_zip] at hiz; omega
  simp only [List.getElem_map, List.getElem_zip, List.getElem_range]
  rw [List.getD_eq_getElem X [] hix, List.getD_eq_getElem K [] hik]

/-- Master pointwise formula for `corr2d_multi_in` on well-shaped inputs with
matching channel counts. -/
theorem corr2d_multi_in_formula {X K : Ten3} {c_i h w kh kw : ℕ}
    (hX : Shape3 X c_i h w) (hK : Shape3 K c_i kh kw)
    (hc : 0 < c_i) (hkh : 0 < kh) (hh : kh ≤ h) (hw : kw ≤ w) :
    corr2d_multi_in X K =
      (List.range (h - kh + 1)).map fun i =>
        (List.range (w - kw + 1)).map fun j =>
          ∑ c ∈ Finset.range c_i, ∑ a ∈ Finset.range kh, ∑ b ∈ Finset.range kw,
            get3 X c (i + a) (j + b) * get3 K c a b := by
  have hXc : ∀ c, c < c_i → Shape2 (X.getD c []) h w := fun c hc' =>
    hX.2 _ (getD_mem [] (by rw [hX.1]; exact hc'))
  have hKc : ∀ c, c < c_i → Shape2 (K.getD c []) kh kw := fun c hc' =>
    hK.2 _ (getD_mem [] (by rw [hK.1]; exact hc'))
  have hXlen : ∀ c, c < c_i → (X.getD c []).length = h := fun c hc' => (hXc c hc').1
  have hXrow : ∀ c, c < c_i → ((X.getD c []).getD 0 []).length = w := by
    intro c hc'
    exact (hXc c hc').2 _
      (getD_mem [] (by rw [(hXc c hc').1]; exact lt_of_lt_of_le hkh hh))
  have hKlen : ∀ c, c < c_i → (K.getD c []).length = kh := fun c hc' => (hKc c hc').1
  have hKrow : ∀ c, c < c_i → ((K.getD c []).getD 0 []).length = kw := by
    intro c hc'
    exact (hKc c hc').2 _ (getD_mem [] (by rw [(hKc c hc').1]; exact hkh))
  have hminXK : min X.length K.length = c_i := by rw [hX.1, hK.1, min_self]
  have hcorshape : ∀ c, c < c_i →
      Shape2 (corr2d (X.getD c []) (K.getD c [])) (h - kh + 1) (w - kw + 1) := by
    intro c hc'
    have h2 := corr2d_shape (X.getD c []) (K.getD c [])
    rw [hXlen c hc', hXrow c hc', hKlen c hc', hKrow c hc',
      Nat.sub_add_comm hh, Nat.sub_add_comm hw] at h2
    exact h2
  rw [corr2d_multi_in]
  set l := (X.zip K).map fun p => corr2d p.1 p.2 with hl
  have hlr : l = (List.range c_i).map fun c => corr2d (X.getD c []) (K.getD c []) := by
    rw [hl, zip_corr2d_eq_range, hminXK]
  have hlen : l.length = c_i := by rw [hlr]; simp
  have hgetc : ∀ c, c < c_i → l.getD c [] = corr2d (X.getD c []) (K.getD c []) := by
    intro c hc'
    rw [hlr]
    exact getD_range_map _ _ hc'
  have hrows : (l.getD 0 []).length = h - kh + 1 := by
    rw [hgetc 0 hc]
    exact (hcorshape 0 hc).1
  have hcols : ((l.getD 0 []).getD 0 []).length = w - kw + 1 := by
    rw [hgetc 0 hc]
    exact (hcorshape 0 hc).2 _
      (getD_mem [] (by rw [(hcorshape 0 hc).1]; omega))
  refine mat_ext ?_ (shape2_range_map _) ?_
  · have h2 := sumStack_shape l
    rw [hrows, hcols] at h2
    exact h2
  · intro i hi j hj
    rw [get2_range_map _ hi hj,
      sumStack_get (by rw [hrows]; exact hi) (by rw [hcols]; exact hj), hlen]
    refine Finset.sum_congr rfl ?_
    intro c hcmem
    have hc' : c < c_i := Finset.mem_range.1 hcmem
    rw [hgetc c hc']
    have hi' : i < (X.getD c []).length + 1 - (K.getD c []).length := by
      rw [hXlen c hc', hKlen c hc']
      omega
    have hj' : j < ((X.getD c []).getD 0 []).length + 1
        - ((K.getD c []).getD 0 []).length := by
      rw [hXrow c hc', hKrow c hc']
      omega
    rw [corr2d_get hi' hj', hKlen c hc', hKrow c hc']
    rfl

/-- Shape of `corr2d_multi_in` on well-shaped inputs. -/
theorem corr2d_multi_in_shape {X K : Ten3} {c_i h w kh kw : ℕ}
    (hX : Shape3 X c_i h w) (hK : Shape3 K c_i kh kw)
    (hc : 0 < c_i) (hkh : 0 < kh) (hh : kh ≤ h) (hw : kw ≤ w) :
    Shape2 (corr2d_multi_in X K) (h - kh + 1) (w - kw + 1) := by
  rw [corr2d_multi_in_formula hX hK hc hkh hh hw]
  exact shape2_range_map _

/-- Unfolding of `corr2d_multi_in_out_1x1` with its shape reads spelled out. -/
theorem corr2d_multi_in_out_1x1_def (X : Ten3) (K : Ten4) :
    corr2d_multi_in_out_1x1 X K =
      reshape3 K.length (X.getD 0 []).length ((X.getD 0 []).getD 0 []).length
        (flatten2 (matmul (reshape2 K.length X.length (flatten4 K))
          (reshape2 X.length
            ((X.getD 0 []).length * ((X.getD 0 []).getD 0 []).length)
            (flatten3 X)))) := rfl

/-- Pointwise formula for the fully-connected (matmul) formulation of the 1x1
convolution. -/
theorem corr2d_multi_in_out_1x1_formula {X : Ten3} {K : Ten4} {c_i h w c_o : ℕ}
    (hX : Shape3 X c_i h w) (hK : Shape4 K c_o c_i 1 1)
    (hc : 0 < c_i) (hh : 0 < h) (_hw : 0 < w) :
    corr2d_multi_in_out_1x1 X K =
      (List.range c_o).map fun o => (List.range h).map fun i =>
        (List.range w).map fun j =>
          ∑ c ∈ Finset.range c_i, get4 K o c 0 0 * get3 X c i j := by
  have hX0 : Shape2 (X.getD 0 []) h w := hX.2 _ (getD_mem [] (by rw [hX.1]; exact hc))
  have hXlen : X.length = c_i := hX.1
  have hXh : (X.getD 0 []).length = h := hX0.1
  have hXw : ((X.getD 0 []).getD 0 []).length = w :=
    hX0.2 _ (getD_mem [] (by rw [hX0.1]; exact hh))
  have hKlen : K.length = c_o := hK.1
  rw [corr2d_multi_in_out_1x1_def, hXlen, hXh, hXw, hKlen]
  set X2 := reshape2 c_i (h * w) (flatten3 X) with hX2
  set K2 := reshape2 c_o c_i (flatten4 K) with hK2
  have hX2shape : Shape2 X2 c_i (h * w) := reshape2_shape _ _ _
  have hK2shape : Shape2 K2 c_o c_i := reshape2_shape _ _ _
  have hX2row : (X2.getD 0 []).length = h * w :=
    hX2shape.2 _ (getD_mem [] (by rw [hX2shape.1]; exact hc))
  have hYshape : Shape2 (matmul K2 X2) c_o (h * w) := by
    have h2 := matmul_shape K2 X2
    rwa [hK2shape.1, hX2row] at h2
  refine ten3_ext (a := c_o) (r := h) (c := w) ?_ (shape3_range_map _) ?_
  · have h3 := reshape3_shape c_o h w (flatten2 (matmul K2 X2))
    exact h3
  · intro o ho i hi j hj
    have hij : i * w + j < h * w :=
      calc i * w + j < i * w + w := Nat.add_lt_add_left hj _
        _ = (i + 1) * w := by ring
        _ ≤ h * w := Nat.mul_le_mul_right w (Nat.succ_le_of_lt hi)
    rw [get3_range_map _ ho hi hj, reshape3_get _ ho hi hj,
      flatten2_getD hYshape ho hij,
      matmul_get (by rw [hK2shape.1]; exact ho) (by rw [hX2row]; exact hij),
      hX2shape.1]
    refine Finset.sum_congr rfl ?_
    intro c hcmem
    have hc' : c < c_i := Finset.mem_range.1 hcmem
    have hKentry : get1 (K2.getD o []) c = get4 K o c 0 0 := by
      have h4 := flatten4_getD hK ho hc' (Nat.zero_lt_one) (Nat.zero_lt_one)
      have h5 := reshape2_get (flatten4 K) ho hc'
      rw [get2] at h5
      rw [hK2, h5]
      simpa using h4
    have hXentry : get2 X2 c (i * w + j) = get3 X c i j := by
      rw [hX2, reshape2_get (flatten3 X) hc' hij]
      exact flatten3_getD hX hc' hi hj
    rw [hKentry, hXentry]

/-- Pointwise formula for `corr2d_multi_in_out` on a 1x1 kernel. -/
theorem corr2d_multi_in_out_1x1_kernel_formula {X : Ten3} {K : Ten4}
    {c_i h w c_o : ℕ} (hX : Shape3 X c_i h w) (hK : Shape4 K c_o c_i 1 1)
    (hc : 0 < c_i) (hh : 0 < h) (hw : 0 < w) :
    corr2d_multi_in_out X K =
      (List.range c_o).map fun o => (List.range h).map fun i =>
        (List.range w).map fun j =>
          ∑ c ∈ Finset.range c_i, get4 K o c 0 0 * get3 X c i j := by
  have hone : ∀ k : Ten3, Shape3 k c_i 1 1 →
      corr2d_multi_in X k = (List.range h).map fun i => (List.range w).map fun j =>
        ∑ c ∈ Finset.range c_i, get3 k c 0 0 * get3 X c i j := by
    intro k hk
    have hform := corr2d_multi_in_formula hX hk hc Nat.one_pos hh hw
    have hh1 : h - 1 + 1 = h := Nat.succ_pred_eq_of_pos hh
    have hw1 : w - 1 + 1 = w := Nat.succ_pred_eq_of_pos hw
    rw [hh1, hw1] at hform
    rw [hform]
    refine List.map_congr_left ?_
    intro i _
    refine List.map_congr_left ?_
    intro j _
    refine Finset.sum_congr rfl ?_
    intro c _
    rw [Finset.sum_range_one, Finset.sum_range_one, Nat.add_zero, Nat.add_zero,
      mul_comm]
  refine ten3_ext (a := c_o) (r := h) (c := w) ?_ (shape3_range_map _) ?_
  · refine ⟨by simp [corr2d_multi_in_out, hK.1], ?_⟩
    intro m hm
    rcases List.mem_map.1 hm with ⟨k, hkmem, rfl⟩
    rw [hone k (hK.2 k hkmem)]
    exact shape2_range_map _
  · intro o ho i hi j hj
    rw [get3_range_map _ ho hi hj]
    have hgo : (corr2d_multi_in_out X K).getD o [] = corr2d_multi_in X (K.getD o []) := by
      rw [corr2d_multi_in_out]
      exact getD_map _ K [] [] (by rw [hK.1]; exact ho)
    rw [get3, hgo, hone _ (hK.2 _ (getD_mem [] (by rw [hK.1]; exact ho))),
      get2_range_map _ hi hj]
    rfl

/-! ## Lemmas for the multi-head attention notebook -/

theorem index_lt {i j r c : ℕ} (hi : i < r) (hj : j < c) : i * c + j < r * c :=
  calc i * c + j < i * c + c := Nat.add_lt_add_left hj _
    _ = (i + 1) * c := by ring
    _ ≤ r * c := Nat.mul_le_mul_right c (Nat.succ_le_of_lt hi)

theorem getD_take_drop {α : Type _} (l : List α) (d : α) {a b' j : ℕ} (hj : j < b') :
    ((l.drop a).take b').getD j d = l.getD (a + j) d := by
  rw [List.getD_eq_getElem?_getD, List.getElem?_take_of_lt hj,
    List.getElem?_drop, List.getD_eq_getElem?_getD]

theorem get4_range_map {A B C D : ℕ} (S : ℕ → ℕ → ℕ → ℕ → ℚ) {i j k l : ℕ}
    (hi : i < A) (hj : j < B) (hk : k < C) (hl : l < D) :
    get4 ((List.range A).map fun i => (List.range B).map fun j =>
      (List.range C).map fun k => (List.range D).map fun l => S i j k l) i j k l =
      S i j k l := by
  simp only [get4, get3, get2, get1]
  rw [getD_range_map _ _ hi, getD_range_map _ _ hj, getD_range_map _ _ hk,
    getD_range_map _ _ hl]

theorem shape4_range_map {A B C D : ℕ} (S : ℕ → ℕ → ℕ → ℕ → ℚ) :
    Shape4 ((List.range A).map fun i => (List.range B).map fun j =>
      (List.range C).map fun k => (List.range D).map fun l => S i j k l) A B C D := by
  refine ⟨by simp, ?_⟩
  intro u hu
  rcases List.mem_map.1 hu with ⟨i, _, rfl⟩
  exact shape3_range_map _

theorem swap01_range_map {n H : ℕ} (hn : 0 < n) (R : ℕ → ℕ → Vec) :
    swap01 ((List.range n).map fun j => (List.range H).map fun k => R j k) =
      (List.range H).map fun k => (List.range n).map fun j => R j k := by
  unfold swap01
  rw [getD_range_map _ _ hn, length_range_map, length_range_map]
  refine List.map_congr_left ?_
  intro k hk
  refine List.map_congr_left ?_
  intro j hj
  rw [getD_range_map _ _ (List.mem_range.1 hj),
    getD_range_map _ _ (List.mem_range.1 hk)]

theorem transpose0213_reshape4 {a b' c d : ℕ} (hb' : 0 < b') (v : Vec) :
    transpose0213 (reshape4 a b' c d v) =
      (List.range a).map fun i => (List.range c).map fun k =>
        (List.range b').map fun j => (List.range d).map fun l =>
          get1 v (i * (b' * (c * d)) + (j * (c * d) + (k * d + l))) := by
  rw [reshape4, transpose0213, List.map_map]
  refine List.map_congr_left ?_
  intro i _
  exact swap01_range_map hb' _

/-- Characterization of `transpose_qkv` on a well-shaped input: slice
`i = b' * H + h` of the output holds, for each position `t`, the `h`-th
`dh`-wide block of row `t` of batch element `b'`. -/
theorem transpose_qkv_eq {X : Ten3} {b n H dh : ℕ}
    (hX : Shape3 X b n (H * dh)) (hb : 0 < b) (hn : 0 < n) (hH : 0 < H)
    (hdh : 0 < dh) :
    transpose_qkv H X =
      (List.range (b * H)).map fun i => (List.range n).map fun t =>
        (List.range dh).map fun j => get3 X (i / H) t (i % H * dh + j) := by
  have hXlen : X.length = b := hX.1
  have hXn : (X.getD 0 []).length = n :=
    (hX.2 _ (getD_mem [] (by rw [hX.1]; exact hb))).1
  have hflat : (flatten3 X).length = b * (n * (H * dh)) := flatten3_length hX
  have hdh' : (flatten3 X).length / (b * n * H) = dh := by
    rw [hflat, show b * (n * (H * dh)) = b * n * H * dh by ring,
      Nat.mul_div_cancel_left]
    exact Nat.mul_pos (Nat.mul_pos hb hn) hH
  simp only [transpose_qkv]
  rw [hXlen, hXn, hdh', transpose0213_reshape4 hn]
  set Xt := (List.range b).map fun i => (List.range H).map fun k =>
    (List.range n).map fun j => (List.range dh).map fun l =>
      get1 (flatten3 X) (i * (n * (H * dh)) + (j * (H * dh) + (k * dh + l)))
    with hXt
  have hXtshape : Shape4 Xt b H n dh := shape4_range_map _
  have hs2 : ((Xt.getD 0 []).getD 0 []).length = n := by
    rw [hXt, getD_range_map _ _ hb, getD_range_map _ _ hH, length_range_map]
  have hs3 : (((Xt.getD 0 []).getD 0 []).getD 0 []).length = dh := by
    rw [hXt, getD_range_map _ _ hb, getD_range_map _ _ hH,
      getD_range_map _ _ hn, length_range_map]
  rw [hs2, hs3, flatten4_length hXtshape,
    show b * (H * (n * dh)) = b * H * (n * dh) by ring,
    Nat.mul_div_cancel _ (Nat.mul_pos hn hdh)]
  refine ten3_ext (reshape3_shape _ _ _ _) (shape3_range_map _) ?_
  intro i hi t ht j hj
  have hiH : i / H < b := Nat.div_lt_of_lt_mul (by rwa [Nat.mul_comm] at hi)
  have hiMod : i % H < H := Nat.mod_lt _ hH
  have hidx : i * (n * dh) + (t * dh + j) =
      i / H * (H * (n * dh)) + (i % H * (n * dh) + (t * dh + j)) := by
    conv_lhs => rw [← Nat.div_add_mod' i H]
    ring
  rw [reshape3_get _ hi ht hj, get3_range_map _ hi ht hj, hidx,
    flatten4_getD hXtshape hiH hiMod ht hj, hXt,
    get4_range_map _ hiH hiMod ht hj]
  have hinner : i % H * dh + j < H * dh := index_lt hiMod hj
  exact flatten3_getD hX hiH ht hinner

/-- Shape of the concatenated-heads tensor. -/
theorem concatHeads_shape {Z : Ten3} {b H n dh : ℕ} (hZ : Shape3 Z (b * H) n dh) :
    Shape3 ((List.range b).map fun i => (List.range n).map fun t =>
      ((List.range H).map fun h => (Z.getD (i * H + h) []).getD t []).flatten)
      b n (H * dh) := by
  refine ⟨by simp, ?_⟩
  intro m hm
  rcases List.mem_map.1 hm with ⟨i, hi, rfl⟩
  refine ⟨by simp, ?_⟩
  intro row hrow
  rcases List.mem_map.1 hrow with ⟨t, htmem, rfl⟩
  have hu : ∀ x ∈ (List.range H).map fun h => (Z.getD (i * H + h) []).getD t [],
      x.length = dh := by
    intro x hx
    rcases List.mem_map.1 hx with ⟨h, hhmem, rfl⟩
    have hih : i * H + h < b * H :=
      index_lt (List.mem_range.1 hi) (List.mem_range.1 hhmem)
    have hZi : Shape2 (Z.getD (i * H + h) []) n dh :=
      hZ.2 _ (getD_mem [] (by rw [hZ.1]; exact hih))
    exact hZi.2 _ (getD_mem [] (by rw [hZi.1]; exact List.mem_range.1 htmem))
  rw [join_length_uniform hu, length_range_map]

/-- Element of the concatenated-heads tensor. -/
theorem concatHeads_get {Z : Ten3} {b H n dh : ℕ} (hZ : Shape3 Z (b * H) n dh)
    (hdh : 0 < dh) {i t q : ℕ} (hi : i < b) (ht : t < n) (hq : q < H * dh) :
    get3 ((List.range b).map fun i => (List.range n).map fun t =>
      ((List.range H).map fun h => (Z.getD (i * H + h) []).getD t []).flatten)
      i t q = get3 Z (i * H + q / dh) t (q % dh) := by
  have hu : ∀ x ∈ (List.range H).map fun h => (Z.getD (i * H + h) []).getD t [],
      x.length = dh := by
    intro x hx
    rcases List.mem_map.1 hx with ⟨h, hhmem, rfl⟩
    have hih : i * H + h < b * H := index_lt hi (List.mem_range.1 hhmem)
    have hZi : Shape2 (Z.getD (i * H + h) []) n dh :=
      hZ.2 _ (getD_mem [] (by rw [hZ.1]; exact hih))
    exact hZi.2 _ (getD_mem [] (by rw [hZi.1]; exact ht))
  have hqd : q / dh < H := Nat.div_lt_of_lt_mul (by rwa [Nat.mul_comm] at hq)
  simp only [get3, get2, get1]
  rw [getD_range_map _ _ hi, getD_range_map _ _ ht,
    join_getD_div_mod 0 _ dh hu hdh (by rw [length_range_map]; exact hq),
    getD_range_map _ _ hqd]

/-- Characterization of `transpose_output` on a well-shaped input: batch
element `i`, position `t` of the output is the concatenation over heads `h`
of row `t` of slice `i * H + h` of the input. -/
theorem transpose_output_eq {Z : Ten3} {b H n dh : ℕ}
    (hZ : Shape3 Z (b * H) n dh) (hb : 0 < b) (hH : 0 < H) (hn : 0 < n)
    (hdh : 0 < dh) :
    transpose_output H Z =
      (List.range b).map fun i => (List.range n).map fun t =>
        ((List.range H).map fun h => (Z.getD (i * H + h) []).getD t []).flatten := by
  have hbH : 0 < b * H := Nat.mul_pos hb hH
  have hZn : (Z.getD 0 []).length = n :=
    (hZ.2 _ (getD_mem [] (by rw [hZ.1]; exact hbH))).1
  have hZdh : ((Z.getD 0 []).getD 0 []).length = dh := by
    have hZ0 : Shape2 (Z.getD 0 []) n dh := hZ.2 _ (getD_mem [] (by rw [hZ.1]; exact hbH))
    exact hZ0.2 _ (getD_mem [] (by rw [hZ0.1]; exact hn))
  have hflat : (flatten3 Z).length = b * H * (n * dh) := flatten3_length hZ
  have hb' : (flatten3 Z).length / (H * n * dh) = b := by
    rw [hflat, show b * H * (n * dh) = b * (H * n * dh) by ring,
      Nat.mul_div_cancel _ (Nat.mul_pos (Nat.mul_pos hH hn) hdh)]
  simp only [transpose_output]
  rw [hZn, hZdh, hb', transpose0213_reshape4 hH]
  set Zt := (List.range b).map fun i => (List.range n).map fun k =>
    (List.range H).map fun j => (List.range dh).map fun l =>
      get1 (flatten3 Z) (i * (H * (n * dh)) + (j * (n * dh) + (k * dh + l)))
    with hZt
  have hZtshape : Shape4 Zt b n H dh := shape4_range_map _
  have ht0 : Zt.length = b := by rw [hZt, length_range_map]
  have ht1 : (Zt.getD 0 []).length = n := by
    rw [hZt, getD_range_map _ _ hb, length_range_map]
  rw [ht0, ht1, flatten4_length hZtshape,
    show b * (n * (H * dh)) = b * n * (H * dh) by ring,
    Nat.mul_div_cancel_left _ (Nat.mul_pos hb hn)]
  refine ten3_ext (reshape3_shape _ _ _ _) (concatHeads_shape hZ) ?_
  intro i hi t ht q hq
  rw [reshape3_get _ hi ht hq, concatHeads_get hZ hdh hi ht hq]
  have hqd : q / dh < H := Nat.div_lt_of_lt_mul (by rwa [Nat.mul_comm] at hq)
  have hqm : q % dh < dh := Nat.mod_lt _ hdh
  have hidx : i * (n * (H * dh)) + (t * (H * dh) + q) =
      i * (n * (H * dh)) + (t * (H * dh) + (q / dh * dh + q % dh)) := by
    rw [Nat.div_add_mod' q dh]
  rw [hidx, flatten4_getD hZtshape hi ht hqd hqm, hZt,
    get4_range_map _ hi ht hqd hqm]
  have hidx2 : i * (H * (n * dh)) + (q / dh * (n * dh) + (t * dh + q % dh)) =
      (i * H + q / dh) * (n * dh) + (t * dh + q % dh) := by
    ring
  rw [hidx2]
  exact flatten3_getD hZ (index_lt hi hqd) ht hqm

theorem mul_add_div_eq {i h H : ℕ} (hH : 0 < H) (hh : h < H) :
    (i * H + h) / H = i := by
  rw [Nat.mul_comm i H, Nat.mul_add_div hH, Nat.div_eq_of_lt hh, Nat.add_zero]

theorem mul_add_mod_eq {i h H : ℕ} (hh : h < H) : (i * H + h) % H = h := by
  rw [Nat.mul_comm i H, Nat.mul_add_mod, Nat.mod_eq_of_lt hh]

theorem dense_getD {W : Mat} {X : Ten3} {i : ℕ} (hi : i < X.length) :
    (dense W X).getD i [] = matmul (X.getD i []) W := by
  rw [dense]
  exact getD_map _ X [] [] hi

theorem dense_shape {W : Mat} {X : Ten3} {b n din dout : ℕ}
    (hX : Shape3 X b n din) (hW : Shape2 W din dout) (hdin : 0 < din) :
    Shape3 (dense W X) b n dout := by
  refine ⟨by simp [dense, hX.1], ?_⟩
  intro m hm
  rcases List.mem_map.1 hm with ⟨mm, hmm, rfl⟩
  have h2 := matmul_shape mm W
  have hcols : (W.getD 0 []).length = dout :=
    hW.2 _ (getD_mem [] (by rw [hW.1]; exact hdin))
  rwa [(hX.2 mm hmm).1, hcols] at h2

/-- The `dh`-wide column block read off the densely projected tensor is the
matrix product with the per-head slice of the weight matrix. -/
theorem dense_head_slice {X : Ten3} {W : Mat} {b n din H dh : ℕ}
    (hX : Shape3 X b n din) (hW : Shape2 W din (H * dh)) (hdin : 0 < din)
    {i1 h : ℕ} (hi1 : i1 < b) (hh : h < H) :
    ((List.range n).map fun t => (List.range dh).map fun j =>
        get3 (dense W X) i1 t (h * dh + j)) =
      matmul (X.getD i1 []) (headSlice dh h W) := by
  have hXi : Shape2 (X.getD i1 []) n din :=
    hX.2 _ (getD_mem [] (by rw [hX.1]; exact hi1))
  have hWrow : ∀ k, k < din → (W.getD k []).length = H * dh := fun k hk =>
    hW.2 _ (getD_mem [] (by rw [hW.1]; exact hk))
  have hslice_len : (headSlice dh h W).length = din := by
    rw [headSlice, List.length_map, hW.1]
  have hsub : dh ≤ H * dh - h * dh := by
    have h1 : (h + 1) * dh ≤ H * dh := Nat.mul_le_mul_right dh (Nat.succ_le_of_lt hh)
    rw [Nat.succ_mul] at h1
    exact Nat.le_sub_of_add_le (by rwa [Nat.add_comm] at h1)
  have hslice_row : ∀ k, k < din → ((headSlice dh h W).getD k []).length = dh := by
    intro k hk
    rw [headSlice, getD_map _ W [] [] (by rw [hW.1]; exact hk),
      List.length_take, List.length_drop, hWrow k hk]
    exact Nat.min_eq_left hsub
  refine mat_ext (shape2_range_map _) ?_ ?_
  · have h2 := matmul_shape (X.getD i1 []) (headSlice dh h W)
    rwa [hXi.1, hslice_row 0 hdin] at h2
  · intro t ht j hj
    rw [get2_range_map _ ht hj]
    have hq : h * dh + j < H * dh := index_lt hh hj
    rw [get3, dense_getD (by rw [hX.1]; exact hi1),
      matmul_get (by rw [hXi.1]; exact ht) (by rw [hWrow 0 hdin]; exact hq),
      matmul_get (by rw [hXi.1]; exact ht) (by rw [hslice_row 0 hdin]; exact hj),
      hslice_len, hW.1]
    refine Finset.sum_congr rfl ?_
    intro k hkmem
    have hk : k < din := Finset.mem_range.1 hkmem
    have hsl : get2 (headSlice dh h W) k j = get2 W k (h * dh + j) := by
      rw [get2, get2, headSlice, getD_map _ W [] [] (by rw [hW.1]; exact hk), get1,
        getD_take_drop _ _ hj, get1]
    rw [hsl]

/-- Per-head shape of the attention arguments built by the call. -/
theorem att_args_shape {X : Ten3} {W : Mat} {b n din H dh : ℕ}
    (hX : Shape3 X b n din) (hW : Shape2 W din (H * dh)) (hdin : 0 < din)
    {i h : ℕ} (hi : i < b) (hh : h < H) :
    Shape2 (matmul (X.getD i []) (headSlice dh h W)) n dh := by
  have h2 := shape2_range_map
    (fun t j => get3 (dense W X) i t (h * dh + j)) (R := n) (C := dh)
  rwa [dense_head_slice hX hW hdin hi hh] at h2

/-- `jnp.repeat` sends the valid-lens entry of batch element `i1` to every
head slice `i1 * H + h` of the repeated vector. -/
theorem repeatAxis0_getD (H : ℕ) (l : List ℕ) {i1 h : ℕ} (hh : h < H) :
    (repeatAxis0 H l).getD (i1 * H + h) 0 = l.getD i1 0 := by
  have hu : ∀ x ∈ l.map (List.replicate H), x.length = H := by
    intro x hx
    rcases List.mem_map.1 hx with ⟨a, _, rfl⟩
    exact List.length_replicate _ _
  by_cases hi1 : i1 < l.length
  · rw [repeatAxis0, join_getD 0 _ H hu i1 h (by simpa using hi1) hh,
      getD_map _ l 0 [] hi1]
    rw [List.getD_eq_getElem _ _ (by simpa using hh)]
    exact List.getElem_replicate _ _
  · have hlen : (repeatAxis0 H l).length = l.length * H := by
      rw [repeatAxis0, join_length_uniform hu, List.length_map]
    rw [List.getD_eq_default, List.getD_eq_default]
    · exact Nat.le_of_not_lt hi1
    · rw [hlen]
      calc l.length * H ≤ i1 * H := Nat.mul_le_mul_right H (Nat.le_of_not_lt hi1)
        _ ≤ i1 * H + h := Nat.le_add_right _ _

/-- Midpoint form of `MultiHeadAttention.call`: the call equals the output
projection applied to the tensor that concatenates, per batch element and
position, the per-head attention outputs of the per-head projected queries,
keys and values, with the batch element's valid-lens entry. -/
theorem call_concat_form {p : MultiHeadAttention}
    {att : Mat → Mat → Mat → Option ℕ → Mat}
    {queries keys values : Ten3} {valid_lens : Option (List ℕ)}
    {b nq m dq dk dv dh : ℕ}
    (hq : Shape3 queries b nq dq) (hk : Shape3 keys b m dk)
    (hv : Shape3 values b m dv)
    (hWq : Shape2 p.W_q dq (p.num_heads * dh))
    (hWk : Shape2 p.W_k dk (p.num_heads * dh))
    (hWv : Shape2 p.W_v dv (p.num_heads * dh))
    (hb : 0 < b) (hnq : 0 < nq) (hm : 0 < m)
    (hdq : 0 < dq) (hdk : 0 < dk) (hdv : 0 < dv)
    (hH : 0 < p.num_heads) (hdh : 0 < dh)
    (hatt : ∀ Q K V vl, Shape2 Q nq dh → Shape2 K m dh → Shape2 V m dh →
      Shape2 (att Q K V vl) nq dh) :
    p.call att queries keys values valid_lens =
      dense p.W_o ((List.range b).map fun i => (List.range nq).map fun t =>
        ((List.range p.num_heads).map fun h =>
          ((att (matmul (queries.getD i []) (headSlice dh h p.W_q))
            (matmul (keys.getD i []) (headSlice dh h p.W_k))
            (matmul (values.getD i []) (headSlice dh h p.W_v))
            (valid_lens.map fun l => l.getD i 0)).getD t [])).flatten) := by
  have hQd : Shape3 (dense p.W_q queries) b nq (p.num_heads * dh) :=
    dense_shape hq hWq hdq
  have hKd : Shape3 (dense p.W_k keys) b m (p.num_heads * dh) :=
    dense_shape hk hWk hdk
  have hVd : Shape3 (dense p.W_v values) b m (p.num_heads * dh) :=
    dense_shape hv hWv hdv
  simp only [MultiHeadAttention.call]
  rw [transpose_qkv_eq hQd hb hnq hH hdh, transpose_qkv_eq hKd hb hm hH hdh,
    transpose_qkv_eq hVd hb hm hH hdh, batchedAttention, length_range_map]
  have hA : ((List.range (b * p.num_heads)).map fun i =>
      att (((List.range (b * p.num_heads)).map fun i =>
          (List.range nq).map fun t => (List.range dh).map fun j =>
            get3 (dense p.W_q queries) (i / p.num_heads) t
              (i % p.num_heads * dh + j)).getD i [])
        (((List.range (b * p.num_heads)).map fun i =>
          (List.range m).map fun t => (List.range dh).map fun j =>
            get3 (dense p.W_k keys) (i / p.num_heads) t
              (i % p.num_heads * dh + j)).getD i [])
        (((List.range (b * p.num_heads)).map fun i =>
          (List.range m).map fun t => (List.range dh).map fun j =>
            get3 (dense p.W_v values) (i / p.num_heads) t
              (i % p.num_heads * dh + j)).getD i [])
        ((valid_lens.map (repeatAxis0 p.num_heads)).map fun l => l.getD i 0)) =
      (List.range (b * p.num_heads)).map fun i =>
        att (matmul (queries.getD (i / p.num_heads) [])
            (headSlice dh (i % p.num_heads) p.W_q))
          (matmul (keys.getD (i / p.num_heads) [])
            (headSlice dh (i % p.num_heads) p.W_k))
          (matmul (values.getD (i / p.num_heads) [])
            (headSlice dh (i % p.num_heads) p.W_v))
          (valid_lens.map fun l => l.getD (i / p.num_heads) 0) := by
    refine List.map_congr_left ?_
    intro i himem
    have hi : i < b * p.num_heads := List.mem_range.1 himem
    have hi1 : i / p.num_heads < b :=
      Nat.div_lt_of_lt_mul (by rwa [Nat.mul_comm] at hi)
    have hmod : i % p.num_heads < p.num_heads := Nat.mod_lt _ hH
    rw [getD_range_map _ _ hi, getD_range_map _ _ hi, getD_range_map _ _ hi,
      dense_head_slice hq hWq hdq hi1 hmod, dense_head_slice hk hWk hdk hi1 hmod,
      dense_head_slice hv hWv hdv hi1 hmod]
    have hvl : (valid_lens.map (repeatAxis0 p.num_heads)).map
        (fun l => l.getD i 0) =
        valid_lens.map fun l => l.getD (i / p.num_heads) 0 := by
      cases valid_lens with
      | none => rfl
      | some l =>
        simp only [Option.map_some']
        have : (repeatAxis0 p.num_heads l).getD i 0 = l.getD (i / p.num_heads) 0 := by
          conv_lhs => rw [← Nat.div_add_mod' i p.num_heads]
          exact repeatAxis0_getD _ _ hmod
        rw [this]
    rw [hvl]
  rw [hA]
  have hAshape : Shape3 ((List.range (b * p.num_heads)).map fun i =>
      att (matmul (queries.getD (i / p.num_heads) [])
          (headSlice dh (i % p.num_heads) p.W_q))
        (matmul (keys.getD (i / p.num_heads) [])
          (headSlice dh (i % p.num_heads) p.W_k))
        (matmul (values.getD (i / p.num_heads) [])
          (headSlice dh (i % p.num_heads) p.W_v))
        (valid_lens.map fun l => l.getD (i / p.num_heads) 0))
      (b * p.num_heads) nq dh := by
    refine ⟨by simp, ?_⟩
    intro mm hmm
    rcases List.mem_map.1 hmm with ⟨i, himem, rfl⟩
    have hi : i < b * p.num_heads := List.mem_range.1 himem
    have hi1 : i / p.num_heads < b :=
      Nat.div_lt_of_lt_mul (by rwa [Nat.mul_comm] at hi)
    have hmod : i % p.num_heads < p.num_heads := Nat.mod_lt _ hH
    exact hatt _ _ _ _ (att_args_shape hq hWq hdq hi1 hmod)
      (att_args_shape hk hWk hdk hi1 hmod) (att_args_shape hv hWv hdv hi1 hmod)
  rw [transpose_output_eq hAshape hb hH hnq hdh]
  refine congrArg (dense p.W_o) ?_
  refine List.map_congr_left ?_
  intro i himem
  have hi : i < b := List.mem_range.1 himem
  refine List.map_congr_left ?_
  intro t _
  refine congrArg List.flatten ?_
  refine List.map_congr_left ?_
  intro h hhmem
  have hh : h < p.num_heads := List.mem_range.1 hhmem
  rw [getD_range_map _ _ (index_lt hi hh), mul_add_div_eq hH hh, mul_add_mod_eq hh]

/-! ## Claims about the convolution notebook -/

/-- C1: on every input `X` of shape `(c_i, h, w)` and kernel `K` of shape
`(c_o, c_i, 1, 1)` (with nondegenerate dimensions), the fully-connected
matrix-multiplication formulation `corr2d_multi_in_out_1x1` agrees with the
per-channel cross-correlation formulation `corr2d_multi_in_out` on every
element; over exact arithmetic the two results are equal tensors. -/
theorem claim_C1_one_by_one_equivalence {X : Ten3} {K : Ten4} {c_i h w c_o : ℕ}
    (hX : Shape3 X c_i h w) (hK : Shape4 K c_o c_i 1 1)
    (hc : 0 < c_i) (hh : 0 < h) (hw : 0 < w) :
    corr2d_multi_in_out_1x1 X K = corr2d_multi_in_out X K := by
  rw [corr2d_multi_in_out_1x1_formula hX hK hc hh hw,
    corr2d_multi_in_out_1x1_kernel_formula hX hK hc hh hw]

/-- Witness for C1 at the concrete `(3, 2, 2)` input and `(2, 3, 1, 1)`
kernel. -/
theorem claim_C1_one_by_one_equivalence_witness :
    Shape3 Xsample1x1 3 2 2 ∧ Shape4 Ksample1x1 2 3 1 1 ∧
      corr2d_multi_in_out_1x1 Xsample1x1 Ksample1x1 =
        corr2d_multi_in_out Xsample1x1 Ksample1x1 :=
  ⟨by decide, by decide,
    @claim_C1_one_by_one_equivalence Xsample1x1 Ksample1x1 3 2 2 2 (by decide)
      (by decide) (by decide) (by decide) (by decide)⟩

/-- C2: on shapes `(c_i, h, w)` and `(c_i, k_h, k_w)` with `k_h ≤ h` and
`k_w ≤ w`, `corr2d_multi_in` is the sum over channels of the per-channel 2D
cross-correlations, and output element `(i, j)` is
`∑ c, a, b, X[c][i+a][j+b] * K[c][a][b]`. -/
theorem claim_C2_multi_in_sum_formula {X K : Ten3} {c_i h w kh kw : ℕ}
    (hX : Shape3 X c_i h w) (hK : Shape3 K c_i kh kw)
    (hc : 0 < c_i) (hkh : 0 < kh) (hh : kh ≤ h) (hw : kw ≤ w) :
    corr2d_multi_in X K =
      sumStack ((List.range c_i).map fun c =>
        corr2d (X.getD c []) (K.getD c [])) ∧
    ∀ i < h - kh + 1, ∀ j < w - kw + 1,
      get2 (corr2d_multi_in X K) i j =
        ∑ c ∈ Finset.range c_i, ∑ a ∈ Finset.range kh, ∑ b ∈ Finset.range kw,
          get3 X c (i + a) (j + b) * get3 K c a b := by
  constructor
  · rw [corr2d_multi_in, zip_corr2d_eq_range, hX.1, hK.1, min_self]
  · intro i hi j hj
    rw [corr2d_multi_in_formula hX hK hc hkh hh hw, get2_range_map _ hi hj]

/-- Witness for C2 at the notebook's own validation tensors. -/
theorem claim_C2_multi_in_sum_formula_witness :
    Shape3 Xsample 2 3 3 ∧ Shape3 Ksample 2 2 2 ∧
      (corr2d_multi_in Xsample Ksample =
        sumStack ((List.range 2).map fun c =>
          corr2d (Xsample.getD c []) (Ksample.getD c [])) ∧
      ∀ i < 3 - 2 + 1, ∀ j < 3 - 2 + 1,
        get2 (corr2d_multi_in Xsample Ksample) i j =
          ∑ c ∈ Finset.range 2, ∑ a ∈ Finset.range 2, ∑ b ∈ Finset.range 2,
            get3 Xsample c (i + a) (j + b) * get3 Ksample c a b) :=
  ⟨by decide, by decide,
    @claim_C2_multi_in_sum_formula Xsample Ksample 2 3 3 2 2 (by decide)
      (by decide) (by decide) (by decide) (by decide) (by decide)⟩

/-- C3: `corr2d_multi_in_out X K` has `c_o` output channels, and in channel
order its `o`-th output channel is `corr2d_multi_in X (K[o])`, computed from
the kernel slice for that output channel. -/
theorem claim_C3_multi_in_out_channels {X : Ten3} {K : Ten4} {c_o c_i kh kw : ℕ}
    (hK : Shape4 K c_o c_i kh kw) :
    (corr2d_multi_in_out X K).length = c_o ∧
      ∀ o < c_o, (corr2d_multi_in_out X K).getD o [] =
        corr2d_multi_in X (K.getD o []) := by
  refine ⟨by simp [corr2d_multi_in_out, hK.1], ?_⟩
  intro o ho
  rw [corr2d_multi_in_out]
  exact getD_map _ K [] [] (by rw [hK.1]; exact ho)

/-- Witness for C3 at the notebook's 3-output-channel kernel. -/
theorem claim_C3_multi_in_out_channels_witness :
    Shape4 Ksample4 3 2 2 2 ∧
      ((corr2d_multi_in_out Xsample Ksample4).length = 3 ∧
        ∀ o < 3, (corr2d_multi_in_out Xsample Ksample4).getD o [] =
          corr2d_multi_in Xsample (Ksample4.getD o [])) :=
  ⟨by decide, @claim_C3_multi_in_out_channels Xsample Ksample4 3 2 2 2 (by decide)⟩

/-- C9: `corr2d_multi_in` performs no channel-count check: when the channel
counts of `X` and `K` differ the call still succeeds (the model is total and
returns a value), and the result is the sum over only the first
`min(c_x, c_k)` channel pairs, because `zip` truncates to the shorter
argument, ignoring the remaining channels of the longer one. -/
theorem claim_C9_zip_truncation {X K : Ten3} (_hne : X.length ≠ K.length) :
    corr2d_multi_in X K =
      sumStack ((List.range (min X.length K.length)).map fun c =>
        corr2d (X.getD c []) (K.getD c [])) := by
  rw [corr2d_multi_in, zip_corr2d_eq_range]

/-- Witness for C9: a 2-channel input against a 1-channel kernel. -/
theorem claim_C9_zip_truncation_witness :
    Xsample.length ≠ KsampleOne.length ∧
      corr2d_multi_in Xsample KsampleOne =
        sumStack ((List.range (min Xsample.length KsampleOne.length)).map fun c =>
          corr2d (Xsample.getD c []) (KsampleOne.getD c [])) :=
  ⟨by decide, claim_C9_zip_truncation (by decide)⟩

/-- C10: shape postcondition of the convolution functions: on input of shape
`(c_i, h, w)` and kernels of shape `(c_i, k_h, k_w)` respectively
`(c_o, c_i, k_h, k_w)` with `k_h ≤ h` and `k_w ≤ w`, `corr2d_multi_in` has
shape `(h - k_h + 1, w - k_w + 1)` and `corr2d_multi_in_out` has shape
`(c_o, h - k_h + 1, w - k_w + 1)`. -/
theorem claim_C10_shapes {X K : Ten3} {K4 : Ten4} {c_i h w kh kw c_o : ℕ}
    (hX : Shape3 X c_i h w) (hK : Shape3 K c_i kh kw)
    (hK4 : Shape4 K4 c_o c_i kh kw)
    (hc : 0 < c_i) (hkh : 0 < kh) (hh : kh ≤ h) (hw : kw ≤ w) :
    Shape2 (corr2d_multi_in X K) (h - kh + 1) (w - kw + 1) ∧
      Shape3 (corr2d_multi_in_out X K4) c_o (h - kh + 1) (w - kw + 1) := by
  refine ⟨corr2d_multi_in_shape hX hK hc hkh hh hw,
    ⟨by simp [corr2d_multi_in_out, hK4.1], ?_⟩⟩
  intro m hm
  rcases List.mem_map.1 hm with ⟨k, hkmem, rfl⟩
  exact corr2d_multi_in_shape hX (hK4.2 k hkmem) hc hkh hh hw

/-- Witness for C10 at the notebook's validation tensors. -/
theorem claim_C10_shapes_witness :
    Shape3 Xsample 2 3 3 ∧ Shape3 Ksample 2 2 2 ∧ Shape4 Ksample4 3 2 2 2 ∧
      (Shape2 (corr2d_multi_in Xsample Ksample) (3 - 2 + 1) (3 - 2 + 1) ∧
        Shape3 (corr2d_multi_in_out Xsample Ksample4) 3 (3 - 2 + 1) (3 - 2 + 1)) :=
  ⟨by decide, by decide, by decide,
    @claim_C10_shapes Xsample Ksample Ksample4 2 3 3 2 2 3 (by decide)
      (by decide) (by decide) (by decide) (by decide) (by decide) (by decide)⟩

/-- The comprehension of `d2l.corr2d` calls surfaces the first library error
unchanged. -/
theorem corr2dListE_error :
    ∀ (ps : List (Mat × Mat)) (e : LibError), corr2dListE ps = Except.error e →
      ∃ p ∈ ps, corr2dE p.1 p.2 = Except.error e
  | [], e, h => by simp [corr2dListE] at h
  | p :: ps, e, h => by
    simp only [corr2dListE] at h
    split at h
    · next e' heq =>
      injection h with h2
      subst h2
      exact ⟨p, by simp, heq⟩
    · next m heq =>
      split at h
      · next e' heq2 =>
        injection h with h2
        subst h2
        rcases corr2dListE_error ps _ heq2 with ⟨q, hq, hfq⟩
        exact ⟨q, List.mem_cons_of_mem p hq, hfq⟩
      · next ms heq2 =>
        simp at h

/-- `corr2d_multi_in` surfaces the unchanged library error of the first
failing of its library calls. -/
theorem corr2d_multi_inE_error (X K : Ten3) (e : LibError)
    (h : corr2d_multi_inE X K = Except.error e) :
    (∃ p ∈ X.zip K, corr2dE p.1 p.2 = Except.error e) ∨
    (∃ l, corr2dListE (X.zip K) = Except.ok l ∧
      reduceSumE l = Except.error e) := by
  rw [corr2d_multi_inE] at h
  split at h
  · next e' heq =>
    injection h with h2
    subst h2
    exact Or.inl (corr2dListE_error _ _ heq)
  · next l heq => exact Or.inr ⟨l, heq, h⟩

/-- The comprehension of `corr2d_multi_in` calls surfaces the first error
unchanged. -/
theorem corr2d_multi_inListE_error (X : Ten3) :
    ∀ (ks : Ten4) (e : LibError), corr2d_multi_inListE X ks = Except.error e →
      ∃ k ∈ ks, corr2d_multi_inE X k = Except.error e
  | [], e, h => by simp [corr2d_multi_inListE] at h
  | k :: ks, e, h => by
    simp only [corr2d_multi_inListE] at h
    split at h
    · next e' heq =>
      injection h with h2
      subst h2
      exact ⟨k, by simp, heq⟩
    · next m heq =>
      split at h
      · next e' heq2 =>
        injection h with h2
        subst h2
        rcases corr2d_multi_inListE_error X ks _ heq2 with ⟨q, hq, hfq⟩
        exact ⟨q, List.mem_cons_of_mem k hq, hfq⟩
      · next ms heq2 =>
        simp at h

/-- `corr2d_multi_in_out` surfaces the unchanged error of the first failing
of its inner calls. -/
theorem corr2d_multi_in_outE_error (X : Ten3) (K : Ten4) (e : LibError)
    (h : corr2d_multi_in_outE X K = Except.error e) :
    (∃ k ∈ K, corr2d_multi_inE X k = Except.error e) ∨
    (∃ l, corr2d_multi_inListE X K = Except.ok l ∧
      stackE l = Except.error e) := by
  rw [corr2d_multi_in_outE] at h
  split at h
  · next e' heq =>
    injection h with h2
    subst h2
    exact Or.inl (corr2d_multi_inListE_error X _ _ heq)
  · next l heq => exact Or.inr ⟨l, heq, h⟩

/-- `corr2d_multi_in_out_1x1` surfaces the unchanged library error of the
first failing of its four library calls. -/
theorem corr2d_multi_in_out_1x1E_error (X : Ten3) (K : Ten4) (e : LibError)
    (herr : corr2d_multi_in_out_1x1E X K = Except.error e) :
    reshapeE2 X.length ((X.getD 0 []).length * ((X.getD 0 []).getD 0 []).length)
        (flatten3 X) = Except.error e ∨
    reshapeE2 K.length X.length (flatten4 K) = Except.error e ∨
    (∃ X2 K2,
      reshapeE2 X.length
          ((X.getD 0 []).length * ((X.getD 0 []).getD 0 []).length)
          (flatten3 X) = Except.ok X2 ∧
      reshapeE2 K.length X.length (flatten4 K) = Except.ok K2 ∧
      matmulE K2 X2 = Except.error e) ∨
    (∃ X2 K2 Y,
      reshapeE2 X.length
          ((X.getD 0 []).length * ((X.getD 0 []).getD 0 []).length)
          (flatten3 X) = Except.ok X2 ∧
      reshapeE2 K.length X.length (flatten4 K) = Except.ok K2 ∧
      matmulE K2 X2 = Except.ok Y ∧
      reshapeE3 K.length (X.getD 0 []).length ((X.getD 0 []).getD 0 []).length
        (flatten2 Y) = Except.error e) := by
  rw [corr2d_multi_in_out_1x1E] at herr
  split at herr
  · left
    injection herr with h2
    subst h2
    assumption
  · split at herr
    · right
      left
      injection herr with h2
      subst h2
      assumption
    · split at herr
      · right
        right
        left
        refine ⟨_, _, by assumption, by assumption, ?_⟩
        injection herr with h2
        subst h2
        assumption
      · right
        right
        right
        exact ⟨_, _, _, by assumption, by assumption, by assumption, herr⟩

/-- `transpose_qkv` surfaces the unchanged library error of the first
failing of its two inferred-dimension reshapes. -/
theorem transpose_qkvE_error (H : ℕ) (X : Ten3) (e : LibError)
    (h : transpose_qkvE H X = Except.error e) :
    reshapeInferLast4E X.length (X.getD 0 []).length H (flatten3 X) =
        Except.error e ∨
    (∃ X4, reshapeInferLast4E X.length (X.getD 0 []).length H (flatten3 X) =
        Except.ok X4 ∧
      reshapeInferFirst3E (((transpose0213 X4).getD 0 []).getD 0 []).length
        ((((transpose0213 X4).getD 0 []).getD 0 []).getD 0 []).length
        (flatten4 (transpose0213 X4)) = Except.error e) := by
  rw [transpose_qkvE] at h
  split at h
  · next e' heq =>
    injection h with h2
    subst h2
    exact Or.inl heq
  · next X4 heq => exact Or.inr ⟨X4, heq, h⟩

/-- `transpose_output` surfaces the unchanged library error of the first
failing of its two inferred-dimension reshapes. -/
theorem transpose_outputE_error (H : ℕ) (X : Ten3) (e : LibError)
    (h : transpose_outputE H X = Except.error e) :
    reshapeInferFirst4E H (X.getD 0 []).length ((X.getD 0 []).getD 0 []).length
        (flatten3 X) = Except.error e ∨
    (∃ X4, reshapeInferFirst4E H (X.getD 0 []).length
        ((X.getD 0 []).getD 0 []).length (flatten3 X) = Except.ok X4 ∧
      reshapeInferLast3E (transpose0213 X4).length
        ((transpose0213 X4).getD 0 []).length
        (flatten4 (transpose0213 X4)) = Except.error e) := by
  rw [transpose_outputE] at h
  split at h
  · next e' heq =>
    injection h with h2
    subst h2
    exact Or.inl heq
  · next X4 heq => exact Or.inr ⟨X4, heq, h⟩

/-- C7: no function defined in this repository catches, transforms, or
recovers from an error.  Each of the five repository-defined functions is
modelled with the fallibility of its underlying library calls made explicit,
and for every input on which an inner call fails, the function returns that
call's library-default error unchanged (for the two stacking functions, the
inner call is the per-channel repository function, whose own errors are in
turn unchanged library errors by the earlier conjuncts); since `LibError`
has only library constructors, no input makes any of the functions return a
repository-defined error value. -/
theorem claim_C7_error_propagation :
    (∀ (X K : Ten3) (e : LibError), corr2d_multi_inE X K = Except.error e →
      (∃ p ∈ X.zip K, corr2dE p.1 p.2 = Except.error e) ∨
      (∃ l, corr2dListE (X.zip K) = Except.ok l ∧
        reduceSumE l = Except.error e)) ∧
    (∀ (X : Ten3) (K : Ten4) (e : LibError),
      corr2d_multi_in_outE X K = Except.error e →
      (∃ k ∈ K, corr2d_multi_inE X k = Except.error e) ∨
      (∃ l, corr2d_multi_inListE X K = Except.ok l ∧
        stackE l = Except.error e)) ∧
    (∀ (X : Ten3) (K : Ten4) (e : LibError),
      corr2d_multi_in_out_1x1E X K = Except.error e →
      reshapeE2 X.length
          ((X.getD 0 []).length * ((X.getD 0 []).getD 0 []).length)
          (flatten3 X) = Except.error e ∨
      reshapeE2 K.length X.length (flatten4 K) = Except.error e ∨
      (∃ X2 K2,
        reshapeE2 X.length
            ((X.getD 0 []).length * ((X.getD 0 []).getD 0 []).length)
            (flatten3 X) = Except.ok X2 ∧
        reshapeE2 K.length X.length (flatten4 K) = Except.ok K2 ∧
        matmulE K2 X2 = Except.error e) ∨
      (∃ X2 K2 Y,
        reshapeE2 X.length
            ((X.getD 0 []).length * ((X.getD 0 []).getD 0 []).length)
            (flatten3 X) = Except.ok X2 ∧
        reshapeE2 K.length X.length (flatten4 K) = Except.ok K2 ∧
        matmulE K2 X2 = Except.ok Y ∧
        reshapeE3 K.length (X.getD 0 []).length
          ((X.getD 0 []).getD 0 []).length
          (flatten2 Y) = Except.error e)) ∧
    (∀ (H : ℕ) (X : Ten3) (e : LibError),
      transpose_qkvE H X = Except.error e →
      reshapeInferLast4E X.length (X.getD 0 []).length H (flatten3 X) =
          Except.error e ∨
      (∃ X4, reshapeInferLast4E X.length (X.getD 0 []).length H
          (flatten3 X) = Except.ok X4 ∧
        reshapeInferFirst3E (((transpose0213 X4).getD 0 []).getD 0 []).length
          ((((transpose0213 X4).getD 0 []).getD 0 []).getD 0 []).length
          (flatten4 (transpose0213 X4)) = Except.error e)) ∧
    (∀ (H : ℕ) (X : Ten3) (e : LibError),
      transpose_outputE H X = Except.error e →
      reshapeInferFirst4E H (X.getD 0 []).length
          ((X.getD 0 []).getD 0 []).length (flatten3 X) = Except.error e ∨
      (∃ X4, reshapeInferFirst4E H (X.getD 0 []).length
          ((X.getD 0 []).getD 0 []).length (flatten3 X) = Except.ok X4 ∧
        reshapeInferLast3E (transpose0213 X4).length
          ((transpose0213 X4).getD 0 []).length
          (flatten4 (transpose0213 X4)) = Except.error e)) :=
  ⟨corr2d_multi_inE_error, corr2d_multi_in_outE_error,
    corr2d_multi_in_out_1x1E_error, transpose_qkvE_error,
    transpose_outputE_error⟩

/-- Witness for C7: concrete failing inputs for each of the five functions.
An oversized kernel makes the `d2l.corr2d` call inside `corr2d_multi_in`
(and hence inside `corr2d_multi_in_out`) fail; a channel mismatch makes the
kernel reshape of `corr2d_multi_in_out_1x1` fail; a non-divisible element
count makes the inferred-dimension reshape of `transpose_qkv` and of
`transpose_output` fail.  In each case the function returns exactly the
inner library error. -/
theorem claim_C7_error_propagation_witness :
    (corr2d_multi_inE XerrSample KerrSample =
        Except.error LibError.corr2dError ∧
      ((∃ p ∈ XerrSample.zip KerrSample,
          corr2dE p.1 p.2 = Except.error LibError.corr2dError) ∨
        (∃ l, corr2dListE (XerrSample.zip KerrSample) = Except.ok l ∧
          reduceSumE l = Except.error LibError.corr2dError))) ∧
    (corr2d_multi_in_outE XerrSample K4errSample =
        Except.error LibError.corr2dError ∧
      ((∃ k ∈ K4errSample,
          corr2d_multi_inE XerrSample k = Except.error LibError.corr2dError) ∨
        (∃ l, corr2d_multi_inListE XerrSample K4errSample = Except.ok l ∧
          stackE l = Except.error LibError.corr2dError))) ∧
    (corr2d_multi_in_out_1x1E XerrSample K4mismatch =
        Except.error LibError.reshapeError ∧
      (reshapeE2 XerrSample.length
          ((XerrSample.getD 0 []).length *
            ((XerrSample.getD 0 []).getD 0 []).length)
          (flatten3 XerrSample) = Except.error LibError.reshapeError ∨
      reshapeE2 K4mismatch.length XerrSample.length (flatten4 K4mismatch) =
          Except.error LibError.reshapeError ∨
      (∃ X2 K2,
        reshapeE2 XerrSample.length
            ((XerrSample.getD 0 []).length *
              ((XerrSample.getD 0 []).getD 0 []).length)
            (flatten3 XerrSample) = Except.ok X2 ∧
        reshapeE2 K4mismatch.length XerrSample.length (flatten4 K4mismatch) =
            Except.ok K2 ∧
        matmulE K2 X2 = Except.error LibError.reshapeError) ∨
      (∃ X2 K2 Y,
        reshapeE2 XerrSample.length
            ((XerrSample.getD 0 []).length *
              ((XerrSample.getD 0 []).getD 0 []).length)
            (flatten3 XerrSample) = Except.ok X2 ∧
        reshapeE2 K4mismatch.length XerrSample.length (flatten4 K4mismatch) =
            Except.ok K2 ∧
        matmulE K2 X2 = Except.ok Y ∧
        reshapeE3 K4mismatch.length (XerrSample.getD 0 []).length
          ((XerrSample.getD 0 []).getD 0 []).length
          (flatten2 Y) = Except.error LibError.reshapeError))) ∧
    (transpose_qkvE 2 XerrSample = Except.error LibError.reshapeError ∧
      (reshapeInferLast4E XerrSample.length (XerrSample.getD 0 []).length 2
          (flatten3 XerrSample) = Except.error LibError.reshapeError ∨
        (∃ X4, reshapeInferLast4E XerrSample.length
            (XerrSample.getD 0 []).length 2 (flatten3 XerrSample) =
            Except.ok X4 ∧
          reshapeInferFirst3E
            (((transpose0213 X4).getD 0 []).getD 0 []).length
            ((((transpose0213 X4).getD 0 []).getD 0 []).getD 0 []).length
            (flatten4 (transpose0213 X4)) =
            Except.error LibError.reshapeError))) ∧
    (transpose_outputE 2 XerrSample = Except.error LibError.reshapeError ∧
      (reshapeInferFirst4E 2 (XerrSample.getD 0 []).length
          ((XerrSample.getD 0 []).getD 0 []).length (flatten3 XerrSample) =
          Except.error LibError.reshapeError ∨
        (∃ X4, reshapeInferFirst4E 2 (XerrSample.getD 0 []).length
            ((XerrSample.getD 0 []).getD 0 []).length (flatten3 XerrSample) =
            Except.ok X4 ∧
          reshapeInferLast3E (transpose0213 X4).length
            ((transpose0213 X4).getD 0 []).length
            (flatten4 (transpose0213 X4)) =
            Except.error LibError.reshapeError))) :=
  ⟨⟨rfl, claim_C7_error_propagation.1 XerrSample KerrSample
      LibError.corr2dError rfl⟩,
    ⟨rfl, claim_C7_error_propagation.2.1 XerrSample K4errSample
      LibError.corr2dError rfl⟩,
    ⟨rfl, claim_C7_error_propagation.2.2.1 XerrSample K4mismatch
      LibError.reshapeError rfl⟩,
    ⟨rfl, claim_C7_error_propagation.2.2.2.1 2 XerrSample
      LibError.reshapeError rfl⟩,
    ⟨rfl, claim_C7_error_propagation.2.2.2.2 2 XerrSample
      LibError.reshapeError rfl⟩⟩

/-- C8: all five repository-defined functions are deterministic: two runs on
equal inputs produce equal outputs.  (Absence of input mutation is captured by
the embedding itself: each function is a pure function of its arguments and
returns a fresh tensor, as the underlying TensorFlow and JAX operations do
not mutate their operands.) -/
theorem claim_C8_deterministic (X X' K K' : Ten3) (K4 K4' : Ten4)
    (H H' : ℕ) (Z Z' : Ten3)
    (hX : X = X') (hK : K = K') (hK4 : K4 = K4') (hH : H = H') (hZ : Z = Z') :
    corr2d_multi_in X K = corr2d_multi_in X' K' ∧
    corr2d_multi_in_out X K4 = corr2d_multi_in_out X' K4' ∧
    corr2d_multi_in_out_1x1 X K4 = corr2d_multi_in_out_1x1 X' K4' ∧
    transpose_qkv H Z = transpose_qkv H' Z' ∧
    transpose_output H Z = transpose_output H' Z' := by
  subst hX hK hK4 hH hZ
  exact ⟨rfl, rfl, rfl, rfl, rfl⟩

/-! ## Claims about the multi-head attention notebook -/

/-- C4: `MultiHeadAttention.call` computes exactly the standard multi-head
attention formula: linear projections of queries, keys and values, reshaping
into heads via `transpose_qkv`, attention pooling run independently per head
(on the per-head column slices of the projections, with the batch element's
valid-lens entry), concatenation of the per-head outputs via
`transpose_output`, and the output projection `W_o` — with no additional
computation between these steps. -/
theorem claim_C4_standard_formula {p : MultiHeadAttention}
    {att : Mat → Mat → Mat → Option ℕ → Mat}
    {queries keys values : Ten3} {valid_lens : Option (List ℕ)}
    {b nq m dq dk dv dh : ℕ}
    (hq : Shape3 queries b nq dq) (hk : Shape3 keys b m dk)
    (hv : Shape3 values b m dv)
    (hWq : Shape2 p.W_q dq (p.num_heads * dh))
    (hWk : Shape2 p.W_k dk (p.num_heads * dh))
    (hWv : Shape2 p.W_v dv (p.num_heads * dh))
    (hb : 0 < b) (hnq : 0 < nq) (hm : 0 < m)
    (hdq : 0 < dq) (hdk : 0 < dk) (hdv : 0 < dv)
    (hH : 0 < p.num_heads) (hdh : 0 < dh)
    (hatt : ∀ Q K V vl, Shape2 Q nq dh → Shape2 K m dh → Shape2 V m dh →
      Shape2 (att Q K V vl) nq dh) :
    p.call att queries keys values valid_lens =
      standardMHA p dh att queries keys values valid_lens := by
  rw [call_concat_form hq hk hv hWq hWk hWv hb hnq hm hdq hdk hdv hH hdh hatt]
  simp only [standardMHA]
  refine congrArg (dense p.W_o) ?_
  rw [hq.1]
  refine List.map_congr_left ?_
  intro i himem
  have hi : i < b := List.mem_range.1 himem
  rw [(hq.2 _ (getD_mem [] (by rw [hq.1]; exact hi))).1]

/-- Witness for C4 at the sample parameters (2 heads, `num_hiddens = 2`),
with the attention primitive instantiated by a shape-preserving function. -/
theorem claim_C4_standard_formula_witness :
    Shape3 Qsample 1 2 2 ∧ Shape3 KVsample 1 2 2 ∧
      MultiHeadAttention.call MHAsample attSample Qsample KVsample KVsample
          (some [3]) =
        standardMHA MHAsample 1 attSample Qsample KVsample KVsample (some [3]) :=
  ⟨by decide, by decide,
    @claim_C4_standard_formula MHAsample attSample Qsample KVsample KVsample
      (some [3]) 1 2 2 2 2 2 1 (by decide) (by decide) (by decide) (by decide)
      (by decide) (by decide) (by decide) (by decide) (by decide) (by decide)
      (by decide) (by decide) (by decide) (by decide)
      (fun Q K V vl hQ _ _ => hQ)⟩

/-- C5: for every tensor of shape `(batch_size, n, num_hiddens)` with
`num_hiddens` divisible by `num_heads` (all nondegenerate),
`transpose_output` undoes `transpose_qkv`: the round trip is the identity, so
splitting into heads and re-concatenating restores the original layout. -/
theorem claim_C5_round_trip {X : Ten3} {b n d H dh : ℕ}
    (hX : Shape3 X b n d) (hd : d = H * dh)
    (hb : 0 < b) (hn : 0 < n) (hH : 0 < H) (hdh : 0 < dh) :
    transpose_output H (transpose_qkv H X) = X := by
  subst hd
  rw [transpose_qkv_eq hX hb hn hH hdh]
  set Z := (List.range (b * H)).map fun i => (List.range n).map fun t =>
    (List.range dh).map fun j => get3 X (i / H) t (i % H * dh + j) with hZdef
  have hZ : Shape3 Z (b * H) n dh := shape3_range_map _
  rw [transpose_output_eq hZ hb hH hn hdh]
  refine ten3_ext (concatHeads_shape hZ) hX ?_
  intro i hi t ht q hq
  have hqd : q / dh < H := Nat.div_lt_of_lt_mul (by rwa [Nat.mul_comm] at hq)
  have hqm : q % dh < dh := Nat.mod_lt _ hdh
  rw [concatHeads_get hZ hdh hi ht hq, hZdef,
    get3_range_map _ (index_lt hi hqd) ht hqm,
    mul_add_div_eq hH hqd, mul_add_mod_eq hqd, Nat.div_add_mod' q dh]

/-- Witness for C5 at a `(1, 2, 4)` tensor with 2 heads. -/
theorem claim_C5_round_trip_witness :
    Shape3 XsampleMHA 1 2 4 ∧
      transpose_output 2 (transpose_qkv 2 XsampleMHA) = XsampleMHA :=
  ⟨by decide,
    @claim_C5_round_trip XsampleMHA 1 2 4 2 2 (by decide) (by decide)
      (by decide) (by decide) (by decide) (by decide)⟩

/-- C6: for all well-shaped inputs — queries of shape
`(batch_size, num_queries, num_hiddens)`, keys and values of shape
`(batch_size, num_kvpairs, num_hiddens)`, `num_hiddens` divisible by
`num_heads` — the first output of `MultiHeadAttention.call` has shape
`(batch_size, num_queries, num_hiddens)`, for every such input and not just
the notebook's toy example. -/
theorem claim_C6_output_shape {p : MultiHeadAttention}
    {att : Mat → Mat → Mat → Option ℕ → Mat}
    {queries keys values : Ten3} {valid_lens : Option (List ℕ)}
    {b nq m dh : ℕ}
    (hq : Shape3 queries b nq (p.num_heads * dh))
    (hk : Shape3 keys b m (p.num_heads * dh))
    (hv : Shape3 values b m (p.num_heads * dh))
    (hWq : Shape2 p.W_q (p.num_heads * dh) (p.num_heads * dh))
    (hWk : Shape2 p.W_k (p.num_heads * dh) (p.num_heads * dh))
    (hWv : Shape2 p.W_v (p.num_heads * dh) (p.num_heads * dh))
    (hWo : Shape2 p.W_o (p.num_heads * dh) (p.num_heads * dh))
    (hb : 0 < b) (hnq : 0 < nq) (hm : 0 < m)
    (hH : 0 < p.num_heads) (hdh : 0 < dh)
    (hatt : ∀ Q K V vl, Shape2 Q nq dh → Shape2 K m dh → Shape2 V m dh →
      Shape2 (att Q K V vl) nq dh) :
    Shape3 (p.call att queries keys values valid_lens) b nq
      (p.num_heads * dh) := by
  have hd : 0 < p.num_heads * dh := Nat.mul_pos hH hdh
  rw [call_concat_form hq hk hv hWq hWk hWv hb hnq hm hd hd hd hH hdh hatt]
  refine dense_shape ?_ hWo hd
  refine ⟨by simp, ?_⟩
  intro mm hmm
  rcases List.mem_map.1 hmm with ⟨i, himem, rfl⟩
  have hi : i < b := List.mem_range.1 himem
  refine ⟨by simp, ?_⟩
  intro row hrow
  rcases List.mem_map.1 hrow with ⟨t, htm, rfl⟩
  have ht : t < nq := List.mem_range.1 htm
  have hu : ∀ x ∈ (List.range p.num_heads).map fun h =>
      (att (matmul (queries.getD i []) (headSlice dh h p.W_q))
        (matmul (keys.getD i []) (headSlice dh h p.W_k))
        (matmul (values.getD i []) (headSlice dh h p.W_v))
        (valid_lens.map fun l => l.getD i 0)).getD t [], x.length = dh := by
    intro x hx
    rcases List.mem_map.1 hx with ⟨h, hhm, rfl⟩
    have hh : h < p.num_heads := List.mem_range.1 hhm
    have hsh := hatt (matmul (queries.getD i []) (headSlice dh h p.W_q))
      (matmul (keys.getD i []) (headSlice dh h p.W_k))
      (matmul (values.getD i []) (headSlice dh h p.W_v))
      (valid_lens.map fun l => l.getD i 0)
      (att_args_shape hq hWq hd hi hh) (att_args_shape hk hWk hd hi hh)
      (att_args_shape hv hWv hd hi hh)
    exact hsh.2 _ (getD_mem [] (by rw [hsh.1]; exact ht))
  rw [join_length_uniform hu, length_range_map]

/-- Witness for C6 at the sample parameters. -/
theorem claim_C6_output_shape_witness :
    Shape3 Qsample 1 2 2 ∧ Shape3 KVsample 1 2 2 ∧
      Shape3 (MultiHeadAttention.call MHAsample attSample Qsample KVsample
        KVsample (some [3])) 1 2 (MHAsample.num_heads * 1) :=
  ⟨by decide, by decide,
    @claim_C6_output_shape MHAsample attSample Qsample KVsample KVsample
      (some [3]) 1 2 2 1 (by decide) (by decide) (by decide) (by decide)
      (by decide) (by decide) (by decide) (by decide) (by decide) (by decide)
      (by decide) (by decide) (fun Q K V vl hQ _ _ => hQ)⟩

/-- Witness for C8 at the sample tensors. -/
theorem claim_C8_deterministic_witness :
    corr2d_multi_in Xsample Ksample = corr2d_multi_in Xsample Ksample ∧
    corr2d_multi_in_out Xsample Ksample4 = corr2d_multi_in_out Xsample Ksample4 ∧
    corr2d_multi_in_out_1x1 Xsample Ksample4 =
      corr2d_multi_in_out_1x1 Xsample Ksample4 ∧
    transpose_qkv 2 Qsample = transpose_qkv 2 Qsample ∧
    transpose_output 2 Qsample = transpose_output 2 Qsample :=
  claim_C8_deterministic Xsample Xsample Ksample Ksample Ksample4 Ksample4
    2 2 Qsample Qsample rfl rfl rfl rfl rfl

end ML2
